import Mathlib

/-!
# SotoPong rating-ledger engine: shallow embedding and verification

This file embeds the core logic of `src/sotopong/server.py` (FastAPI +
PostgreSQL backend) as pure Lean functions over an explicit database state,
and proves/refutes the frozen specification claims about it.

Modelling conventions:
* The PostgreSQL tables become lists of records inside a `DB` structure;
  SQL `UPDATE ... WHERE <cond>` becomes `List.map` of a conditional record
  update, SQL `DELETE ... WHERE` becomes `List.filter`, `SELECT ... fetchone`
  becomes `List.find?`, and `SERIAL` columns become explicit counters.
* Every HTTP handler runs inside `get_db()`, which rolls the transaction back
  on any exception; an operation therefore either commits its whole effect or
  leaves the store untouched.  We model each handler as a function
  `... → Except Err ...`: an `.error` outcome carries no successor state,
  mirroring the rollback semantics (the pre-call state persists).
* `HTTPException(code, msg)` becomes `Err.mk code msg` with the exact message
  strings of the source.
* Python truthiness on optional strings (`bool(body.p1b_name)`,
  `if pname:`, `x or y`) is modelled by `truthyOpt` (a `none` or `""` value is
  falsy).
* The numeric internals of `calc_elo` evaluate `1 / (1 + 10 ** ((rb-ra)/400))`
  in IEEE-754 double precision; that computation is not embeddable exactly
  (see the claim about rounding).  `calc_elo` is a *pure* function of the two
  ratings and the two scores, so the ledger operations are parameterised over
  an arbitrary delta function `elo : Int → Int → Int → Int → Int × Int`
  returning `(da, db)`; every ledger theorem below holds for all such
  functions, hence in particular for the source's floating-point one.
-/

namespace Sotopong

/-- `INITIAL_ELO = 1000` from the source configuration. -/
def INITIAL_ELO : Int := 1000

/-- A row of the `players` table: `id SERIAL`, `name TEXT UNIQUE`,
`rating/wins/losses INTEGER` (signed in PostgreSQL, hence `Int`). -/
structure Player where
  id : Nat
  name : String
  rating : Int
  wins : Int
  losses : Int
deriving Repr, DecidableEq

/-- A row of the `matches` table: names of the two (or four) participants,
the two scores, the recorded winner, and the two *stored* per-side deltas. -/
structure GameMatch where
  id : Nat
  p1 : String
  p2 : String
  p1b : Option String
  p2b : Option String
  s1 : Int
  s2 : Int
  winner : String
  d1 : Int
  d2 : Int
deriving Repr, DecidableEq

/-- A row of the `tournaments` table. -/
structure Tournament where
  id : Nat
  name : String
  status : String
  prizeMode : String
  winnerName : Option String
  secondName : Option String
  thirdName : Option String
  bracketJson : Option String
deriving Repr, DecidableEq

/-- A row of the `tournament_players` table. -/
structure TourPlayer where
  id : Nat
  tournamentId : Nat
  playerName : String
  bet : Int
  ratingDelta : Int
  finishPlace : Option Nat
deriving Repr, DecidableEq

/-- The whole persistent store: the four tables plus the `SERIAL` counters
that matter to the claims. -/
structure DB where
  players : List Player
  matchRows : List GameMatch
  tournaments : List Tournament
  tourPlayers : List TourPlayer
  nextPlayerId : Nat
  nextMatchId : Nat
deriving Repr, DecidableEq

/-- An `HTTPException(status_code, detail)` raised by a handler. -/
structure Err where
  code : Nat
  msg : String
deriving Repr, DecidableEq

/-- Request body of `POST /api/matches` (`MatchCreate` in the source). -/
structure MatchCreate where
  p1_name : String
  p2_name : String
  score1 : Int
  score2 : Int
  p1b_name : Option String
  p2b_name : Option String
deriving Repr, DecidableEq

/-- Request body of `POST /api/tournaments/.../finish` (`TournamentFinish`).
The `rounds_won` dict is modelled as an association list; `rwGet` mirrors
`dict.get(name, 0)`. -/
structure TournamentFinish where
  winner_name : String
  second_name : Option String
  third_name : Option String
  bracket_json : Option String
  rounds_won : Option (List (String × Int))
deriving Repr, DecidableEq

deriving instance DecidableEq for Except

/-- Python truthiness of an optional string: `None` and `""` are falsy. -/
def truthyOpt : Option String → Bool
  | none => false
  | some s => s != ""

/-- Python whitespace stripped by `str.strip()` restricted to the ASCII
whitespace characters (space, tab, newline, carriage return, vertical tab,
form feed). -/
def pyWS (c : Char) : Bool :=
  c = ' ' || c = '\t' || c = '\n' || c = '\r' || c = '\x0b' || c = '\x0c'

/-- `str.strip()`: remove leading and trailing whitespace characters. -/
def pyStrip (s : String) : String :=
  String.mk (((s.toList.dropWhile pyWS).reverse.dropWhile pyWS).reverse)

/-- `SELECT * FROM players WHERE name=%s ... fetchone()`. -/
def findByName (ps : List Player) (n : String) : Option Player :=
  ps.find? (fun p => p.name == n)

/-- Effect of `UPDATE players SET rating=rating+d, wins=wins+.., losses=..
WHERE id=pid` on one row. -/
def appF (pid : Nat) (d : Int) (won : Bool) (p : Player) : Player :=
  if p.id = pid then
    { p with rating := p.rating + d,
             wins := p.wins + (if won then 1 else 0),
             losses := p.losses + (if won then 0 else 1) }
  else p

/-- `UPDATE players ... WHERE id=%s` over the whole table. -/
def applyById (ps : List Player) (pid : Nat) (d : Int) (won : Bool) : List Player :=
  ps.map (appF pid d won)

/-- Effect of `UPDATE players SET rating=rating-d, wins=wins-.., losses=..
WHERE name=n` on one row (the reversal update of `delete_match` /
`delete_player`). -/
def revF (n : String) (d : Int) (won : Bool) (p : Player) : Player :=
  if p.name = n then
    { p with rating := p.rating - d,
             wins := p.wins - (if won then 1 else 0),
             losses := p.losses - (if won then 0 else 1) }
  else p

/-- `UPDATE players ... WHERE name=%s` over the whole table. -/
def reverseByName (ps : List Player) (n : String) (d : Int) (won : Bool) : List Player :=
  ps.map (revF n d won)

/-- `POST /api/players` (`create_player`): strip the name, reject empty
names (400), reject duplicates (the source turns the UNIQUE-violation
exception into a 409), otherwise insert with rating 1000 and return the row. -/
def create_player (nameRaw : String) (db : DB) : Except Err (Player × DB) :=
  let name := pyStrip nameRaw
  if name = "" then
    .error ⟨400, "Имя не может быть пустым"⟩
  else if (findByName db.players name).isSome then
    .error ⟨409, "Игрок «" ++ name ++ "» уже существует"⟩
  else
    let p : Player := ⟨db.nextPlayerId, name, INITIAL_ELO, 0, 0⟩
    .ok (p, { db with players := db.players ++ [p], nextPlayerId := db.nextPlayerId + 1 })

/-- The 404 raised by the local helper `gp` in `create_match`. -/
def notFoundPlayer (n : String) : Err :=
  ⟨404, "Игрок «" ++ n ++ "» не найден"⟩

/-- `POST /api/matches` (`create_match`), parameterised over the delta
function `elo` standing for `calc_elo` (see the module docstring).
Faithful to the source: draw check, negative-score check, doubles inference
`bool(p1b_name and p2b_name)`, player lookups in source order, team averages
via Python floor division `//`, per-side delta applied to every member of the
side, and the match row stored with both deltas.  There is no check that the
two sides share no player. -/
def create_match (elo : Int → Int → Int → Int → Int × Int)
    (body : MatchCreate) (db : DB) : Except Err (GameMatch × DB) :=
  if body.score1 = body.score2 then .error ⟨400, "Ничья не допускается"⟩
  else if body.score1 < 0 ∨ body.score2 < 0 then
    .error ⟨400, "Счёт не может быть отрицательным"⟩
  else
    let is2v2 := truthyOpt body.p1b_name && truthyOpt body.p2b_name
    match findByName db.players body.p1_name with
    | none => .error (notFoundPlayer body.p1_name)
    | some pl1 =>
      match findByName db.players body.p2_name with
      | none => .error (notFoundPlayer body.p2_name)
      | some pl2 =>
        let winner := if body.score1 > body.score2 then body.p1_name else body.p2_name
        let team1Won := decide (body.score1 > body.score2)
        if is2v2 then
          match body.p1b_name, body.p2b_name with
          | some n1b, some n2b =>
            match findByName db.players n1b with
            | none => .error (notFoundPlayer n1b)
            | some pl1b =>
              match findByName db.players n2b with
              | none => .error (notFoundPlayer n2b)
              | some pl2b =>
                let avg1 := (pl1.rating + pl1b.rating).fdiv 2
                let avg2 := (pl2.rating + pl2b.rating).fdiv 2
                let dd := elo avg1 avg2 body.score1 body.score2
                let ps := applyById db.players pl1.id dd.1 team1Won
                let ps := applyById ps pl1b.id dd.1 team1Won
                let ps := applyById ps pl2.id dd.2 (!team1Won)
                let ps := applyById ps pl2b.id dd.2 (!team1Won)
                let m : GameMatch := ⟨db.nextMatchId, body.p1_name, body.p2_name,
                  body.p1b_name, body.p2b_name, body.score1, body.score2, winner, dd.1, dd.2⟩
                .ok (m, { db with players := ps, matchRows := db.matchRows ++ [m],
                                  nextMatchId := db.nextMatchId + 1 })
          -- unreachable: `is2v2 = true` forces both partner names present
          | _, _ => .error ⟨500, "unreachable"⟩
        else
          let dd := elo pl1.rating pl2.rating body.score1 body.score2
          let ps := applyById db.players pl1.id dd.1 team1Won
          let ps := applyById ps pl2.id dd.2 (!team1Won)
          let m : GameMatch := ⟨db.nextMatchId, body.p1_name, body.p2_name,
            none, none, body.score1, body.score2, winner, dd.1, dd.2⟩
          .ok (m, { db with players := ps, matchRows := db.matchRows ++ [m],
                            nextMatchId := db.nextMatchId + 1 })

/-- The `pairs` list built identically in `delete_match` and `delete_player`:
one `(name, stored delta, won)` triple per occupied slot; a doubles match is
recognised by a truthy `p1b`. -/
def matchPairs (m : GameMatch) : List (Option String × Int × Bool) :=
  if truthyOpt m.p1b then
    let t1 := decide (m.winner = m.p1)
    [(some m.p1, m.d1, t1), (m.p1b, m.d1, t1), (some m.p2, m.d2, !t1), (m.p2b, m.d2, !t1)]
  else
    [(some m.p1, m.d1, decide (m.winner = m.p1)), (some m.p2, m.d2, decide (m.winner = m.p2))]

/-- One iteration of the reversal loop of `delete_match` on one player row:
`if pname: UPDATE players SET rating=rating-%s, ...` (skip falsy names). -/
def revP (pr : Option String × Int × Bool) (p : Player) : Player :=
  match pr with
  | (some s, d, w) => if s ≠ "" then revF s d w p else p
  | (none, _, _) => p

/-- One iteration of the reversal loop of `delete_player` on one player row:
`if pname and pname != name: UPDATE ...` (also skip the retiring player). -/
def revPX (keep : String) (pr : Option String × Int × Bool) (p : Player) : Player :=
  match pr with
  | (some s, d, w) => if s ≠ "" ∧ s ≠ keep then revF s d w p else p
  | (none, _, _) => p

/-- `DELETE /api/matches/{id}` (`delete_match`): look the match up, reverse
every slot's stored delta and win/loss mark by name, then delete the row. -/
def delete_match (mid : Nat) (db : DB) : Except Err DB :=
  match db.matchRows.find? (fun m => m.id == mid) with
  | none => .error ⟨404, "Матч не найден"⟩
  | some m =>
    let ps := (matchPairs m).foldl (fun acc pr => acc.map (revP pr)) db.players
    .ok { db with players := ps, matchRows := db.matchRows.filter (fun x => x.id != mid) }

/-- `WHERE p1=%s OR p2=%s OR p1b=%s OR p2b=%s` (SQL `NULL = x` is not true). -/
def mentions (m : GameMatch) (n : String) : Bool :=
  m.p1 == n || m.p2 == n || m.p1b == some n || m.p2b == some n

/-- `DELETE /api/players/{id}` (`delete_player`): for every match referencing
the player, reverse its stored effect on every *other* participant, then
delete all those matches and finally the player row. -/
def delete_player (pid : Nat) (db : DB) : Except Err DB :=
  match db.players.find? (fun p => p.id == pid) with
  | none => .error ⟨404, "Игрок не найден"⟩
  | some player =>
    let name := player.name
    let rows := db.matchRows.filter (fun m => mentions m name)
    let ps := rows.foldl
      (fun acc m => (matchPairs m).foldl (fun a pr => a.map (revPX name pr)) acc)
      db.players
    .ok { db with players := ps.filter (fun p => p.id != pid),
                  matchRows := db.matchRows.filter (fun m => !(mentions m name)) }

/-- `rounds_won.get(name, 0)`. -/
def rwGet (rw : List (String × Int)) (n : String) : Int :=
  match rw.find? (fun e => e.1 == n) with
  | some e => e.2
  | none => 0

/-- `place_map.get(name)` after the dict was filled with
`winner→1`, `second→2`, `third→3` in that order (later assignments to the
same key override earlier ones, hence the reversed lookup order), each one
guarded by Python truthiness of the supplied name. -/
def placeOf (w : String) (s t : Option String) (n : String) : Option Nat :=
  if truthyOpt t ∧ some n = t then some 3
  else if truthyOpt s ∧ some n = s then some 2
  else if w ≠ "" ∧ n = w then some 1
  else none

/-- The delta selection chain of `finish_tournament`, with the
`TOURNAMENT_RATING` table values inlined (1st 50, 2nd 25, 3rd 10,
semifinal 5, other 0). -/
def tournamentDelta (place : Option Nat) (rw : Int) : Int :=
  if place = some 1 then 50
  else if place = some 2 then 25
  else if place = some 3 then 10
  else if 2 ≤ rw then 5
  else 0

/-- `UPDATE players SET rating=rating+%s WHERE name=%s` fused with its
`if delta != 0` guard, on one row. -/
def tourAddF (n : String) (d : Int) (p : Player) : Player :=
  if d ≠ 0 ∧ p.name = n then { p with rating := p.rating + d } else p

/-- `UPDATE tournament_players SET rating_delta=%s, finish_place=%s WHERE
tournament_id=%s AND player_name=%s`, on one row. -/
def tourSetF (tid : Nat) (n : String) (d : Int) (pl : Option Nat) (tp : TourPlayer) : TourPlayer :=
  if tp.tournamentId = tid ∧ tp.playerName = n then
    { tp with ratingDelta := d, finishPlace := pl }
  else tp

/-- The body of the `for p in players_rows:` loop of `finish_tournament`,
acting on the pair (players table, tournament_players table). -/
def settleStep (tid : Nat) (w : String) (s t : Option String) (rw : List (String × Int))
    (acc : List Player × List TourPlayer) (row : TourPlayer) :
    List Player × List TourPlayer :=
  let name := row.playerName
  let place := placeOf w s t name
  let delta := tournamentDelta place (rwGet rw name)
  (acc.1.map (tourAddF name delta), acc.2.map (tourSetF tid name delta place))

/-- Python `a or b` on the two optional bracket blobs. -/
def pyOrStr (a b : Option String) : Option String :=
  if truthyOpt a then a else b

/-- `POST /api/tournaments/{tid}/finish` (`finish_tournament`): 404 when the
tournament is unknown, 400 when it is not active, 400 when the winner is not
an entrant; otherwise settle every roster row (rating update for nonzero
deltas, stored delta and place on the roster row) and mark the tournament
finished with the supplied names and bracket blob. -/
def finish_tournament (tid : Nat) (body : TournamentFinish) (db : DB) : Except Err DB :=
  match db.tournaments.find? (fun t => t.id == tid) with
  | none => .error ⟨404, "Турнир не найден"⟩
  | some t =>
    if t.status ≠ "active" then .error ⟨400, "Турнир уже завершён"⟩
    else if !(db.tourPlayers.any (fun tp =>
        tp.tournamentId == tid && tp.playerName == body.winner_name)) then
      .error ⟨400, "Победитель не найден в турнире"⟩
    else
      let rows := db.tourPlayers.filter (fun tp => tp.tournamentId == tid)
      let rw := body.rounds_won.getD []
      let res := rows.foldl
        (settleStep tid body.winner_name body.second_name body.third_name rw)
        (db.players, db.tourPlayers)
      let bj := pyOrStr body.bracket_json t.bracketJson
      let ts := db.tournaments.map (fun u =>
        if u.id = tid then
          { u with status := "finished", winnerName := some body.winner_name,
                   secondName := body.second_name, thirdName := body.third_name,
                   bracketJson := bj }
        else u)
      .ok { db with players := res.1, tourPlayers := res.2, tournaments := ts }

/-- Well-formedness maintained by the handlers and the schema: unique player
names (the UNIQUE constraint), unique ids (SERIAL primary key), nonempty
names (`create_player` rejects empty ones), and match ids below the SERIAL
counter. -/
def DB.WF (db : DB) : Prop :=
  (db.players.map (fun p => p.name)).Nodup ∧
  (db.players.map (fun p => p.id)).Nodup ∧
  (∀ p ∈ db.players, p.name ≠ "") ∧
  (∀ m ∈ db.matchRows, m.id < db.nextMatchId)

instance (db : DB) : Decidable db.WF := by
  unfold DB.WF; infer_instance

/-! ## General list helpers -/

/-- A map that fixes every element of a list is the identity on it. -/
theorem list_map_id {α : Type} (f : α → α) :
    ∀ l : List α, (∀ x ∈ l, f x = x) → l.map f = l
  | [], _ => rfl
  | x :: xs, h => by
    simp only [List.map_cons]
    rw [h x (by simp), list_map_id f xs (fun y hy => h y (by simp [hy]))]

/-- Folding a list of whole-table `map` updates equals mapping, per element,
the fold of the per-row update functions. -/
theorem foldl_map_eq_map_foldl {α β : Type} (f : β → α → α) :
    ∀ (l : List β) (xs : List α),
      l.foldl (fun acc b => acc.map (f b)) xs
        = xs.map (fun x => l.foldl (fun a b => f b a) x)
  | [], xs => by simp
  | b :: l, xs => by
    simp only [List.foldl_cons]
    rw [foldl_map_eq_map_foldl f l (xs.map (f b)), List.map_map]
    rfl

/-- `find?` by name commutes with mapping a name-preserving row update. -/
theorem findByName_map_pres (F : Player → Player)
    (hF : ∀ p, (F p).name = p.name) (ps : List Player) (n : String) :
    findByName (ps.map F) n = (findByName ps n).map F := by
  induction ps with
  | nil => rfl
  | cons p ps ih =>
    simp only [findByName, List.map_cons, List.find?_cons] at *
    rw [hF p]
    by_cases h : (p.name == n) = true
    · simp [h]
    · rw [Bool.not_eq_true] at h
      simp only [h, cond_false]
      exact ih

/-- `appF` preserves the name of the row. -/
theorem appF_name (pid : Nat) (d : Int) (w : Bool) (p : Player) :
    (appF pid d w p).name = p.name := by
  unfold appF; split <;> rfl

/-- `appF` preserves the id of the row. -/
theorem appF_id (pid : Nat) (d : Int) (w : Bool) (p : Player) :
    (appF pid d w p).id = p.id := by
  unfold appF; split <;> rfl

/-- `revF` preserves the name of the row. -/
theorem revF_name (n : String) (d : Int) (w : Bool) (p : Player) :
    (revF n d w p).name = p.name := by
  unfold revF; split <;> rfl

/-- `revF` preserves the id of the row. -/
theorem revF_id (n : String) (d : Int) (w : Bool) (p : Player) :
    (revF n d w p).id = p.id := by
  unfold revF; split <;> rfl

/-! ## Concrete delta function for witnesses and counterexamples

`calc_elo` is floating point; the witnesses below instantiate the `elo`
parameter with `eloCx`, which agrees with the source's `calc_elo` at every
argument tuple at which this development evaluates it: with equal ratings the
winner gains `round(32 * 0.5) = 16` and the loser loses 16, and a 16-point
favourite that wins gains `round(32 * (1 - 1/(1+10^(-16/400)))) = 15` while
the loser loses 15. -/

def eloCx (ra rb sa sb : Int) : Int × Int :=
  if sa > sb then (if ra = 1016 ∧ rb = 1000 then (15, -15) else (16, -16))
  else (if ra = 1000 ∧ rb = 1016 then (-15, 15) else (-16, 16))

/-! ## Claim C8: draw rejection -/

/-- Claim C8: for all score values, `create_match` with `score1 == score2`
fails with the 400 draw `ValidationError`; the transaction is rolled back,
so no match row is created and no player row changes (an `.error` outcome
of the model carries no state mutation). -/
theorem C8_draw_rejected (elo : Int → Int → Int → Int → Int × Int)
    (body : MatchCreate) (db : DB) (h : body.score1 = body.score2) :
    create_match elo body db = .error ⟨400, "Ничья не допускается"⟩ := by
  unfold create_match
  rw [if_pos h]

/-- Witness for C8 at a concrete draw request. -/
theorem C8_draw_rejected_witness :
    create_match eloCx ⟨"A", "B", 7, 7, none, none⟩
        ⟨[⟨1, "A", 1000, 0, 0⟩, ⟨2, "B", 1000, 0, 0⟩], [], [], [], 3, 1⟩
      = .error ⟨400, "Ничья не допускается"⟩ :=
  C8_draw_rejected eloCx _ _ rfl

/-! ## Claim C2: there is no self-match check -/

/-- One registered player, as used by the self-match counterexample. -/
def selfDb : DB := ⟨[⟨1, "A", 1000, 0, 0⟩], [], [], [], 2, 1⟩

/-- A singles request whose two sides name the same player. -/
def selfBody : MatchCreate := ⟨"A", "A", 11, 5, none, none⟩

/-- Claim C2 (counterexample): the claim says a request in which side1 and
side2 share a player is rejected (`SelfMatch`) with no state change.
`create_match` performs no such check: the request `A vs A, 11:5` on a store
containing only player `A` *succeeds*, records a match, and leaves `A` with
one win and one loss (`calc_elo` at equal ratings returns `(16, -16)`, which
is what `eloCx` returns there, so the net rating change is `0`). -/
theorem C2_counterexample :
    create_match eloCx selfBody selfDb =
      .ok (⟨1, "A", "A", none, none, 11, 5, "A", 16, -16⟩,
           ⟨[⟨1, "A", 1000, 1, 1⟩], [⟨1, "A", "A", none, none, 11, 5, "A", 16, -16⟩],
            [], [], 2, 2⟩) := by
  rfl

/-- Claim C2 (amended): `create_match` has no cross-side overlap check.  A
singles request whose two sides name the same existing player, with unequal
non-negative scores, is accepted: the match is recorded and both sides'
deltas and win/loss increments are applied to that one player, leaving it
with `rating + d1 + d2`, one extra win and one extra loss. -/
theorem C2_amended (elo : Int → Int → Int → Int → Int × Int)
    (db : DB) (body : MatchCreate) (pl : Player)
    (hsingles : ¬(truthyOpt body.p1b_name = true ∧ truthyOpt body.p2b_name = true))
    (hshared : body.p2_name = body.p1_name)
    (hfind : findByName db.players body.p1_name = some pl)
    (hs : body.score1 ≠ body.score2) (h1 : 0 ≤ body.score1) (h2 : 0 ≤ body.score2) :
    ∃ m db1, create_match elo body db = .ok (m, db1) ∧
      m.p1 = body.p1_name ∧ m.p2 = body.p1_name ∧
      (m.d1, m.d2) = elo pl.rating pl.rating body.score1 body.score2 ∧
      findByName db1.players body.p1_name =
        some { pl with rating := pl.rating + m.d1 + m.d2,
                       wins := pl.wins + 1, losses := pl.losses + 1 } := by
  have hneg : ¬(body.score1 < 0 ∨ body.score2 < 0) := by omega
  have h2v2 : (truthyOpt body.p1b_name && truthyOpt body.p2b_name) = false := by
    cases ht1 : truthyOpt body.p1b_name <;> cases ht2 : truthyOpt body.p2b_name <;>
      simp_all
  unfold create_match
  rw [if_neg hs, if_neg hneg]
  simp only [h2v2, hfind, hshared, Bool.false_eq_true, if_false]
  set d := elo pl.rating pl.rating body.score1 body.score2 with hd
  refine ⟨_, _, rfl, rfl, rfl, rfl, ?_⟩
  unfold applyById
  rw [findByName_map_pres _ (appF_name _ _ _), findByName_map_pres _ (appF_name _ _ _),
    hfind]
  cases hgt : decide (body.score1 > body.score2) <;>
    simp only [Option.map_some, hgt, Bool.not_true, Bool.not_false] <;>
    simp [appF, Player.mk.injEq]

/-- Witness for the amended C2 at the concrete self-match request. -/
theorem C2_amended_witness :
    ∃ m db1, create_match eloCx selfBody selfDb = .ok (m, db1) ∧
      m.p1 = "A" ∧ m.p2 = "A" ∧
      (m.d1, m.d2) = eloCx 1000 1000 11 5 ∧
      findByName db1.players "A" = some ⟨1, "A", 1000 + m.d1 + m.d2, 0 + 1, 0 + 1⟩ :=
  C2_amended eloCx selfDb selfBody ⟨1, "A", 1000, 0, 0⟩ (by decide) rfl (by decide)
    (by decide) (by decide) (by decide)

/-! ## Claim C9: registration strips surrounding whitespace -/

/-- Claim C9: `create_player` strips leading and trailing whitespace from the
supplied name before the empty-name check, the uniqueness check, and storage:
a name empty after stripping is rejected with 400; a successful registration
stores exactly the stripped name; and a second registration whose name has
the same stripped form (differs only in surrounding whitespace) collides and
fails with the 409 conflict. -/
theorem C9_strip_semantics (raw raw2 : String) (db : DB) :
    (pyStrip raw = "" → create_player raw db = .error ⟨400, "Имя не может быть пустым"⟩) ∧
    (∀ p db1, create_player raw db = .ok (p, db1) →
      p.name = pyStrip raw ∧ p ∈ db1.players) ∧
    (∀ p db1, create_player raw db = .ok (p, db1) → pyStrip raw2 = pyStrip raw →
      create_player raw2 db1 =
        .error ⟨409, "Игрок «" ++ pyStrip raw2 ++ "» уже существует"⟩) := by
  refine ⟨?_, ?_, ?_⟩
  · intro h0
    unfold create_player
    rw [if_pos h0]
  · intro p db1 hok
    unfold create_player at hok
    by_cases h0 : pyStrip raw = ""
    · rw [if_pos h0] at hok; cases hok
    · rw [if_neg h0] at hok
      by_cases hdup : (findByName db.players (pyStrip raw)).isSome = true
      · rw [if_pos hdup] at hok; cases hok
      · rw [if_neg hdup] at hok
        simp only [Except.ok.injEq, Prod.mk.injEq] at hok
        obtain ⟨hp, hdb⟩ := hok
        subst hp
        subst hdb
        exact ⟨rfl, by simp⟩
  · intro p db1 hok heq
    unfold create_player at hok
    by_cases h0 : pyStrip raw = ""
    · rw [if_pos h0] at hok; cases hok
    · rw [if_neg h0] at hok
      by_cases hdup : (findByName db.players (pyStrip raw)).isSome = true
      · rw [if_pos hdup] at hok; cases hok
      · rw [if_neg hdup] at hok
        simp only [Except.ok.injEq, Prod.mk.injEq] at hok
        obtain ⟨hp, hdb⟩ := hok
        subst hp
        subst hdb
        unfold create_player
        rw [if_neg (by rw [heq]; exact h0)]
        have hfound : (findByName
            (db.players ++ [⟨db.nextPlayerId, pyStrip raw, INITIAL_ELO, 0, 0⟩])
            (pyStrip raw2)).isSome = true := by
          unfold findByName at *
          rw [List.find?_append]
          have : ((⟨db.nextPlayerId, pyStrip raw, INITIAL_ELO, 0, 0⟩ : Player).name
              == pyStrip raw2) = true := by
            simp [heq]
          cases hfst : db.players.find? (fun p => p.name == pyStrip raw2) <;>
            simp [hfst, List.find?, this, Option.or]
        rw [if_pos hfound]

/-- Witness for C9: a name of pure whitespace is rejected on an empty store,
and registering `"A  "` after `" A "` collides with the stored `"A"`. -/
theorem C9_strip_semantics_witness :
    create_player "   " (⟨[], [], [], [], 1, 1⟩ : DB)
        = .error ⟨400, "Имя не может быть пустым"⟩ ∧
    create_player "A  " (⟨[⟨1, "A", 1000, 0, 0⟩], [], [], [], 2, 1⟩ : DB)
        = .error ⟨409, "Игрок «" ++ pyStrip "A  " ++ "» уже существует"⟩ :=
  ⟨(C9_strip_semantics "   " "" ⟨[], [], [], [], 1, 1⟩).1 (by decide),
   (C9_strip_semantics " A " "A  " ⟨[], [], [], [], 1, 1⟩).2.2 ⟨1, "A", 1000, 0, 0⟩
     ⟨[⟨1, "A", 1000, 0, 0⟩], [], [], [], 2, 1⟩ (by decide) (by decide)⟩

/-! ## Tournament machinery -/

/-- `find?` by id on the tournaments table commutes with an id-preserving
row update. -/
theorem findTour_map_pres (F : Tournament → Tournament)
    (hF : ∀ t, (F t).id = t.id) (ts : List Tournament) (tid : Nat) :
    (ts.map F).find? (fun t => t.id == tid) = (ts.find? (fun t => t.id == tid)).map F := by
  induction ts with
  | nil => rfl
  | cons t ts ih =>
    simp only [List.map_cons, List.find?_cons]
    rw [hF t]
    by_cases h : (t.id == tid) = true
    · simp [h]
    · rw [Bool.not_eq_true] at h
      simp only [h, cond_false]
      exact ih

/-- The settlement loop acts independently on the two tables: the fold over
the product splits into one fold per table. -/
theorem settle_foldl_split (tid : Nat) (w : String) (s t : Option String)
    (rw : List (String × Int)) :
    ∀ (rows : List TourPlayer) (ps : List Player) (tps : List TourPlayer),
      rows.foldl (settleStep tid w s t rw) (ps, tps)
        = (rows.foldl (fun a row => a.map (tourAddF row.playerName
              (tournamentDelta (placeOf w s t row.playerName) (rwGet rw row.playerName)))) ps,
           rows.foldl (fun a row => a.map (tourSetF tid row.playerName
              (tournamentDelta (placeOf w s t row.playerName) (rwGet rw row.playerName))
              (placeOf w s t row.playerName))) tps)
  | [], _, _ => rfl
  | r :: rows, ps, tps => by
    simp only [List.foldl_cons]
    rw [settle_foldl_split tid w s t rw rows]
    rfl

/-- `tourSetF` preserves every column other than `rating_delta` and
`finish_place`. -/
theorem tourSetF_pres (tid : Nat) (n : String) (d : Int) (pl : Option Nat) (tp : TourPlayer) :
    (tourSetF tid n d pl tp).id = tp.id ∧
    (tourSetF tid n d pl tp).tournamentId = tp.tournamentId ∧
    (tourSetF tid n d pl tp).playerName = tp.playerName ∧
    (tourSetF tid n d pl tp).bet = tp.bet := by
  unfold tourSetF; split <;> exact ⟨rfl, rfl, rfl, rfl⟩

/-- A roster row whose name never occurs in the processed rows is left
untouched by the settlement loop. -/
theorem settle_row_skip (tid : Nat) (w : String) (s t : Option String)
    (rw : List (String × Int)) :
    ∀ (rows : List TourPlayer) (u : TourPlayer),
      (∀ r ∈ rows, ¬(u.tournamentId = tid ∧ u.playerName = r.playerName)) →
      rows.foldl (fun q row => tourSetF tid row.playerName
          (tournamentDelta (placeOf w s t row.playerName) (rwGet rw row.playerName))
          (placeOf w s t row.playerName) q) u = u
  | [], _, _ => rfl
  | r :: rows, u, h => by
    simp only [List.foldl_cons]
    have hstep : tourSetF tid r.playerName
        (tournamentDelta (placeOf w s t r.playerName) (rwGet rw r.playerName))
        (placeOf w s t r.playerName) u = u := by
      unfold tourSetF
      rw [if_neg (h r (by simp))]
    rw [hstep]
    exact settle_row_skip tid w s t rw rows u (fun r' hr' => h r' (by simp [hr']))

/-- The settlement loop writes, on every roster row of the tournament whose
name occurs among the processed rows, exactly the delta and place computed
from that row's name. -/
theorem settle_row_value (tid : Nat) (w : String) (s t : Option String)
    (rw : List (String × Int)) :
    ∀ (rows : List TourPlayer) (u : TourPlayer),
      u.tournamentId = tid →
      (∃ r ∈ rows, r.playerName = u.playerName) →
      rows.foldl (fun q row => tourSetF tid row.playerName
          (tournamentDelta (placeOf w s t row.playerName) (rwGet rw row.playerName))
          (placeOf w s t row.playerName) q) u
        = { u with
            ratingDelta := tournamentDelta (placeOf w s t u.playerName)
              (rwGet rw u.playerName),
            finishPlace := placeOf w s t u.playerName }
  | [], _, _, hex => by simp at hex
  | r :: rows, u, htid, hex => by
    simp only [List.foldl_cons]
    by_cases hr : r.playerName = u.playerName
    · have hstep : tourSetF tid r.playerName
          (tournamentDelta (placeOf w s t r.playerName) (rwGet rw r.playerName))
          (placeOf w s t r.playerName) u
          = { u with
              ratingDelta := tournamentDelta (placeOf w s t u.playerName)
                (rwGet rw u.playerName),
              finishPlace := placeOf w s t u.playerName } := by
        unfold tourSetF
        rw [if_pos ⟨htid, hr.symm⟩, hr]
      rw [hstep]
      by_cases hex2 : ∃ r' ∈ rows, r'.playerName = u.playerName
      · have := settle_row_value tid w s t rw rows
          { u with
            ratingDelta := tournamentDelta (placeOf w s t u.playerName)
              (rwGet rw u.playerName),
            finishPlace := placeOf w s t u.playerName } htid hex2
        rw [this]
      · exact settle_row_skip tid w s t rw rows _ (fun r' hr' hc => hex2 ⟨r', hr', hc.2.symm⟩)
    · have hstep : tourSetF tid r.playerName
          (tournamentDelta (placeOf w s t r.playerName) (rwGet rw r.playerName))
          (placeOf w s t r.playerName) u = u := by
        unfold tourSetF
        rw [if_neg (fun hc => hr hc.2.symm)]
      rw [hstep]
      obtain ⟨r', hr', hname⟩ := hex
      rcases List.mem_cons.mp hr' with h1 | h2
      · exact absurd (h1 ▸ hname) hr
      · exact settle_row_value tid w s t rw rows u htid ⟨r', h2, hname⟩

/-- A player row whose name never occurs among the processed roster rows is
left untouched by the settlement loop's rating updates. -/
theorem settle_player_skip (w : String) (s t : Option String)
    (rw : List (String × Int)) :
    ∀ (rows : List TourPlayer) (p : Player),
      (∀ r ∈ rows, r.playerName ≠ p.name) →
      rows.foldl (fun q row => tourAddF row.playerName
          (tournamentDelta (placeOf w s t row.playerName) (rwGet rw row.playerName)) q) p = p
  | [], _, _ => rfl
  | r :: rows, p, h => by
    simp only [List.foldl_cons]
    have hstep : tourAddF r.playerName
        (tournamentDelta (placeOf w s t r.playerName) (rwGet rw r.playerName)) p = p := by
      unfold tourAddF
      rw [if_neg (fun hc => h r (by simp) hc.2.symm)]
    rw [hstep]
    exact settle_player_skip w s t rw rows p (fun r' hr' => h r' (by simp [hr']))

/-! ## Claim C6: one-way tournament status -/

/-- Claim C6: once `finish_tournament` succeeds, the tournament's status is
`finished`, and a second `finish` call on it fails with the 400 state error
(`Турнир уже завершён`); the failed transaction rolls back, so the
placements, per-entrant deltas and player ratings written by the first call
stay untouched. -/
theorem C6_finish_once (db : DB) (tid : Nat) (body body2 : TournamentFinish) (db1 : DB)
    (h : finish_tournament tid body db = .ok db1) :
    (∃ t1, db1.tournaments.find? (fun u => u.id == tid) = some t1 ∧
      t1.status = "finished") ∧
    finish_tournament tid body2 db1 = .error ⟨400, "Турнир уже завершён"⟩ := by
  unfold finish_tournament at h
  cases hfind : db.tournaments.find? (fun u => u.id == tid) with
  | none => rw [hfind] at h; cases h
  | some t =>
    rw [hfind] at h
    dsimp only at h
    by_cases hact : t.status ≠ "active"
    · rw [if_pos hact] at h; cases h
    · rw [if_neg hact] at h
      by_cases hwin : (!(db.tourPlayers.any (fun tp =>
          tp.tournamentId == tid && tp.playerName == body.winner_name))) = true
      · rw [if_pos hwin] at h; cases h
      · rw [if_neg hwin] at h
        simp only [Except.ok.injEq] at h
        subst h
        have htid : t.id = tid := by
          have := List.find?_some hfind
          simpa using this
        have hfind1 : (db.tournaments.map (fun u =>
            if u.id = tid then
              { u with status := "finished", winnerName := some body.winner_name,
                       secondName := body.second_name, thirdName := body.third_name,
                       bracketJson := pyOrStr body.bracket_json t.bracketJson }
            else u)).find? (fun u => u.id == tid)
            = some { t with status := "finished", winnerName := some body.winner_name,
                            secondName := body.second_name, thirdName := body.third_name,
                            bracketJson := pyOrStr body.bracket_json t.bracketJson } := by
          rw [findTour_map_pres _ (fun u => by split <;> rfl), hfind]
          dsimp only [Option.map]
          rw [if_pos htid]
        refine ⟨⟨_, hfind1, rfl⟩, ?_⟩
        unfold finish_tournament
        rw [hfind1]
        simp

/-- Witness for C6: finishing a concrete one-entrant tournament twice. -/
theorem C6_finish_once_witness :
    (∃ t1, (⟨[⟨1, "A", 1050, 0, 0⟩], [],
        [⟨1, "T", "finished", "winner_takes_all", some "A", none, none, none⟩],
        [⟨1, 1, "A", 0, 50, some 1⟩], 2, 1⟩ : DB).tournaments.find?
          (fun u => u.id == 1) = some t1 ∧ t1.status = "finished") ∧
    finish_tournament 1 ⟨"A", none, none, none, none⟩
      (⟨[⟨1, "A", 1050, 0, 0⟩], [],
        [⟨1, "T", "finished", "winner_takes_all", some "A", none, none, none⟩],
        [⟨1, 1, "A", 0, 50, some 1⟩], 2, 1⟩ : DB)
      = .error ⟨400, "Турнир уже завершён"⟩ :=
  C6_finish_once
    ⟨[⟨1, "A", 1000, 0, 0⟩], [], [⟨1, "T", "active", "winner_takes_all", none, none, none, none⟩],
      [⟨1, 1, "A", 0, 0, none⟩], 2, 1⟩
    1 ⟨"A", none, none, none, none⟩ ⟨"A", none, none, none, none⟩ _ (by decide)

/-- Inversion of a successful `finish_tournament` call: the tournament was
found and active, and the two player tables of the result are the
settlement folds over the tournament's roster rows. -/
theorem finish_tournament_ok_inv (tid : Nat) (body : TournamentFinish) (db db1 : DB)
    (h : finish_tournament tid body db = .ok db1) :
    ∃ t, db.tournaments.find? (fun u => u.id == tid) = some t ∧ t.status = "active" ∧
      db1.players = (db.tourPlayers.filter (fun tp => tp.tournamentId == tid)).foldl
        (fun a row => a.map (tourAddF row.playerName
          (tournamentDelta
            (placeOf body.winner_name body.second_name body.third_name row.playerName)
            (rwGet (body.rounds_won.getD []) row.playerName)))) db.players ∧
      db1.tourPlayers = (db.tourPlayers.filter (fun tp => tp.tournamentId == tid)).foldl
        (fun a row => a.map (tourSetF tid row.playerName
          (tournamentDelta
            (placeOf body.winner_name body.second_name body.third_name row.playerName)
            (rwGet (body.rounds_won.getD []) row.playerName))
          (placeOf body.winner_name body.second_name body.third_name row.playerName)))
        db.tourPlayers := by
  unfold finish_tournament at h
  cases hfind : db.tournaments.find? (fun u => u.id == tid) with
  | none => rw [hfind] at h; cases h
  | some t =>
    rw [hfind] at h
    dsimp only at h
    by_cases hact : t.status ≠ "active"
    · rw [if_pos hact] at h; cases h
    · rw [if_neg hact] at h
      by_cases hwin : (!(db.tourPlayers.any (fun tp =>
          tp.tournamentId == tid && tp.playerName == body.winner_name))) = true
      · rw [if_pos hwin] at h; cases h
      · rw [if_neg hwin] at h
        simp only [Except.ok.injEq] at h
        subst h
        refine ⟨t, rfl, not_not.mp hact, ?_, ?_⟩
        · rw [settle_foldl_split]
        · rw [settle_foldl_split]

/-- Forward evaluation: with the tournament present and active and the
winner on the roster, `finish_tournament` succeeds. -/
theorem finish_tournament_succeeds (db : DB) (tid : Nat) (body : TournamentFinish)
    (t : Tournament)
    (hfind : db.tournaments.find? (fun u => u.id == tid) = some t)
    (hact : t.status = "active")
    (hwin : ∃ tp ∈ db.tourPlayers, tp.tournamentId = tid ∧
      tp.playerName = body.winner_name) :
    ∃ db1, finish_tournament tid body db = .ok db1 := by
  have hany : (db.tourPlayers.any (fun tp =>
      tp.tournamentId == tid && tp.playerName == body.winner_name)) = true := by
    rw [List.any_eq_true]
    obtain ⟨tp, htp, h1, h2⟩ := hwin
    exact ⟨tp, htp, by simp [h1, h2]⟩
  unfold finish_tournament
  rw [hfind]
  dsimp only
  rw [if_neg (by simp [hact]), if_neg (by simp [hany])]
  exact ⟨_, rfl⟩

/-- `rounds_won.get(name, 0)` is `0` when no entry has the key. -/
theorem rwGet_absent (l : List (String × Int)) (n : String)
    (h : ∀ e ∈ l, e.1 ≠ n) : rwGet l n = 0 := by
  unfold rwGet
  cases hf : l.find? (fun e => e.1 == n) with
  | none => rfl
  | some e =>
    have he := List.find?_some hf
    have hm := List.mem_of_find?_eq_some hf
    rw [beq_iff_eq] at he
    exact absurd he (h e hm)

/-- The roster-table settlement fold, written as a single pointwise map. -/
theorem settle_tps_as_map (tid : Nat) (w : String) (s t : Option String)
    (rw : List (String × Int)) (rows tps : List TourPlayer) :
    rows.foldl (fun a row => a.map (tourSetF tid row.playerName
      (tournamentDelta (placeOf w s t row.playerName) (rwGet rw row.playerName))
      (placeOf w s t row.playerName))) tps
    = tps.map (fun u => rows.foldl (fun q row => tourSetF tid row.playerName
        (tournamentDelta (placeOf w s t row.playerName) (rwGet rw row.playerName))
        (placeOf w s t row.playerName) q) u) :=
  foldl_map_eq_map_foldl _ rows tps

/-- The players-table settlement fold, written as a single pointwise map. -/
theorem settle_ps_as_map (w : String) (s t : Option String)
    (rw : List (String × Int)) (rows : List TourPlayer) (ps : List Player) :
    rows.foldl (fun a row => a.map (tourAddF row.playerName
      (tournamentDelta (placeOf w s t row.playerName) (rwGet rw row.playerName)))) ps
    = ps.map (fun p => rows.foldl (fun q row => tourAddF row.playerName
        (tournamentDelta (placeOf w s t row.playerName) (rwGet rw row.playerName)) q) p) :=
  foldl_map_eq_map_foldl _ rows ps

/-- The settlement fold never changes a roster row's tournament id or name. -/
theorem settle_fold_pres (tid : Nat) (w : String) (s t : Option String)
    (rw : List (String × Int)) :
    ∀ (rows : List TourPlayer) (u : TourPlayer),
      (rows.foldl (fun q row => tourSetF tid row.playerName
          (tournamentDelta (placeOf w s t row.playerName) (rwGet rw row.playerName))
          (placeOf w s t row.playerName) q) u).tournamentId = u.tournamentId ∧
      (rows.foldl (fun q row => tourSetF tid row.playerName
          (tournamentDelta (placeOf w s t row.playerName) (rwGet rw row.playerName))
          (placeOf w s t row.playerName) q) u).playerName = u.playerName
  | [], _ => ⟨rfl, rfl⟩
  | r :: rows, u => by
    simp only [List.foldl_cons]
    have h := tourSetF_pres tid r.playerName
      (tournamentDelta (placeOf w s t r.playerName) (rwGet rw r.playerName))
      (placeOf w s t r.playerName) u
    have ih := settle_fold_pres tid w s t rw rows (tourSetF tid r.playerName
      (tournamentDelta (placeOf w s t r.playerName) (rwGet rw r.playerName))
      (placeOf w s t r.playerName) u)
    exact ⟨ih.1.trans h.2.1, ih.2.trans h.2.2.1⟩

/-! ## Claim C5: tournament delta priority rule -/

/-- Claim C5: when a tournament is finished, each entrant's stored rating
delta follows the strict priority rule of the source's selection chain:
resolved place 1 gives 50, place 2 gives 25, place 3 gives 10, otherwise
`roundsWon ≥ 2` gives 5, otherwise 0; a missing `rounds_won` entry (or a
missing dict) counts as 0 rounds; and in particular an entrant who is the
(truthy, non-third) `secondName` receives 25 regardless of rounds won. -/
theorem C5_delta_priority (db : DB) (tid : Nat) (body : TournamentFinish) (db1 : DB)
    (h : finish_tournament tid body db = .ok db1)
    (tp : TourPlayer) (htp : tp ∈ db1.tourPlayers) (htid : tp.tournamentId = tid) :
    tp.finishPlace
      = placeOf body.winner_name body.second_name body.third_name tp.playerName ∧
    (placeOf body.winner_name body.second_name body.third_name tp.playerName = some 1 →
      tp.ratingDelta = 50) ∧
    (placeOf body.winner_name body.second_name body.third_name tp.playerName = some 2 →
      tp.ratingDelta = 25) ∧
    (placeOf body.winner_name body.second_name body.third_name tp.playerName = some 3 →
      tp.ratingDelta = 10) ∧
    (placeOf body.winner_name body.second_name body.third_name tp.playerName = none →
      2 ≤ rwGet (body.rounds_won.getD []) tp.playerName → tp.ratingDelta = 5) ∧
    (placeOf body.winner_name body.second_name body.third_name tp.playerName = none →
      rwGet (body.rounds_won.getD []) tp.playerName < 2 → tp.ratingDelta = 0) ∧
    (body.rounds_won = none → rwGet (body.rounds_won.getD []) tp.playerName = 0) ∧
    (∀ l, body.rounds_won = some l → (∀ e ∈ l, e.1 ≠ tp.playerName) →
      rwGet (body.rounds_won.getD []) tp.playerName = 0) ∧
    (truthyOpt body.second_name = true → body.second_name = some tp.playerName →
      ¬(truthyOpt body.third_name = true ∧ some tp.playerName = body.third_name) →
      tp.ratingDelta = 25) := by
  obtain ⟨t, hfind, hact, hps, htps⟩ := finish_tournament_ok_inv tid body db db1 h
  rw [htps, settle_tps_as_map] at htp
  obtain ⟨tp0, htp0, hval⟩ := List.mem_map.mp htp
  have hpres := settle_fold_pres tid body.winner_name body.second_name body.third_name
    (body.rounds_won.getD []) (db.tourPlayers.filter (fun u => u.tournamentId == tid)) tp0
  have htid0 : tp0.tournamentId = tid := by
    rw [← hpres.1, hval, htid]
  have hrow : tp0 ∈ db.tourPlayers.filter (fun u => u.tournamentId == tid) :=
    List.mem_filter.mpr ⟨htp0, by simp [htid0]⟩
  rw [settle_row_value tid body.winner_name body.second_name body.third_name
    (body.rounds_won.getD []) _ tp0 htid0 ⟨tp0, hrow, rfl⟩] at hval
  subst hval
  refine ⟨rfl, ?_, ?_, ?_, ?_, ?_, ?_, ?_, ?_⟩
  · intro hp; rw [tournamentDelta, hp]; rfl
  · intro hp; rw [tournamentDelta, hp]; rfl
  · intro hp; rw [tournamentDelta, hp]; rfl
  · intro hp hrw
    rw [tournamentDelta, hp]
    simp [hrw]
  · intro hp hrw
    rw [tournamentDelta, hp]
    simp [hrw, not_le.mpr hrw]
  · intro hnone; rw [hnone]; rfl
  · intro l hl habs
    rw [hl]
    exact rwGet_absent l tp0.playerName habs
  · intro hs2t hs2 hnot3
    have hp : placeOf body.winner_name body.second_name body.third_name tp0.playerName
        = some 2 := by
      unfold placeOf
      rw [if_neg (fun hc => hnot3 ⟨hc.1, hc.2⟩), if_pos ⟨hs2t, hs2.symm⟩]
    rw [tournamentDelta, hp]
    rfl

/-! ## Claim C10: only the winner is validated -/

/-- Claim C10: `finish_tournament` validates only the winner against the
roster.  With the tournament active and the winner an entrant the call
succeeds whatever `secondName`/`thirdName` hold; a player row whose name is
not a roster name of this tournament is not touched; and when the second
(resp. third) name is absent, empty, or not an entrant, no roster row of the
tournament ends with place 2 (resp. 3). -/
theorem C10_winner_only_validated (db : DB) (tid : Nat) (body : TournamentFinish)
    (t : Tournament)
    (hfind : db.tournaments.find? (fun u => u.id == tid) = some t)
    (hact : t.status = "active")
    (hwin : ∃ tp ∈ db.tourPlayers, tp.tournamentId = tid ∧
      tp.playerName = body.winner_name) :
    ∃ db1, finish_tournament tid body db = .ok db1 ∧
      (∀ p ∈ db.players,
        (∀ r ∈ db.tourPlayers, r.tournamentId = tid → r.playerName ≠ p.name) →
        p ∈ db1.players) ∧
      ((∀ s2, body.second_name = some s2 → s2 ≠ "" →
          ∀ r ∈ db.tourPlayers, r.tournamentId = tid → r.playerName ≠ s2) →
        ∀ tp ∈ db1.tourPlayers, tp.tournamentId = tid → tp.finishPlace ≠ some 2) ∧
      ((∀ s3, body.third_name = some s3 → s3 ≠ "" →
          ∀ r ∈ db.tourPlayers, r.tournamentId = tid → r.playerName ≠ s3) →
        ∀ tp ∈ db1.tourPlayers, tp.tournamentId = tid → tp.finishPlace ≠ some 3) := by
  obtain ⟨db1, hok⟩ := finish_tournament_succeeds db tid body t hfind hact hwin
  obtain ⟨t', hfind', hact', hps, htps⟩ := finish_tournament_ok_inv tid body db db1 hok
  refine ⟨db1, hok, ?_, ?_, ?_⟩
  · intro p hp hno
    rw [hps, settle_ps_as_map]
    refine List.mem_map.mpr ⟨p, hp, ?_⟩
    refine settle_player_skip body.winner_name body.second_name body.third_name
      (body.rounds_won.getD []) _ p ?_
    intro r hr
    have hr2 := List.mem_filter.mp hr
    exact hno r hr2.1 (by simpa using hr2.2)
  · intro hS tp htp htid
    rw [htps, settle_tps_as_map] at htp
    obtain ⟨tp0, htp0, hval⟩ := List.mem_map.mp htp
    have hpres := settle_fold_pres tid body.winner_name body.second_name body.third_name
      (body.rounds_won.getD []) (db.tourPlayers.filter (fun u => u.tournamentId == tid)) tp0
    have htid0 : tp0.tournamentId = tid := by rw [← hpres.1, hval, htid]
    have hrow : tp0 ∈ db.tourPlayers.filter (fun u => u.tournamentId == tid) :=
      List.mem_filter.mpr ⟨htp0, by simp [htid0]⟩
    rw [settle_row_value tid body.winner_name body.second_name body.third_name
      (body.rounds_won.getD []) _ tp0 htid0 ⟨tp0, hrow, rfl⟩] at hval
    subst hval
    intro heq
    have heq2 : placeOf body.winner_name body.second_name body.third_name tp0.playerName
        = some 2 := heq
    unfold placeOf at heq2
    split_ifs at heq2 with h1 h2 h3
    · cases heq2
    · obtain ⟨ht2, hn2⟩ := h2
      cases hs2 : body.second_name with
      | none => rw [hs2] at ht2; cases ht2
      | some s2 =>
        rw [hs2] at ht2 hn2
        have hne : s2 ≠ "" := by simpa [truthyOpt] using ht2
        exact hS s2 hs2 hne tp0 htp0 htid0 (Option.some.inj hn2)
    · cases heq2
  · intro hS tp htp htid
    rw [htps, settle_tps_as_map] at htp
    obtain ⟨tp0, htp0, hval⟩ := List.mem_map.mp htp
    have hpres := settle_fold_pres tid body.winner_name body.second_name body.third_name
      (body.rounds_won.getD []) (db.tourPlayers.filter (fun u => u.tournamentId == tid)) tp0
    have htid0 : tp0.tournamentId = tid := by rw [← hpres.1, hval, htid]
    have hrow : tp0 ∈ db.tourPlayers.filter (fun u => u.tournamentId == tid) :=
      List.mem_filter.mpr ⟨htp0, by simp [htid0]⟩
    rw [settle_row_value tid body.winner_name body.second_name body.third_name
      (body.rounds_won.getD []) _ tp0 htid0 ⟨tp0, hrow, rfl⟩] at hval
    subst hval
    intro heq
    have heq2 : placeOf body.winner_name body.second_name body.third_name tp0.playerName
        = some 3 := heq
    unfold placeOf at heq2
    split_ifs at heq2 with h1 h2 h3
    · obtain ⟨ht3, hn3⟩ := h1
      cases hs3 : body.third_name with
      | none => rw [hs3] at ht3; cases ht3
      | some s3 =>
        rw [hs3] at ht3 hn3
        have hne : s3 ≠ "" := by simpa [truthyOpt] using ht3
        exact hS s3 hs3 hne tp0 htp0 htid0 (Option.some.inj hn3)
    · cases heq2
    · cases heq2

/-- Store for the C5 witness: active tournament 1 with entrants A and B. -/
def wDb5 : DB :=
  ⟨[⟨1, "A", 1000, 0, 0⟩, ⟨2, "B", 1000, 0, 0⟩], [],
   [⟨1, "T", "active", "winner_takes_all", none, none, none, none⟩],
   [⟨1, 1, "A", 0, 0, none⟩, ⟨2, 1, "B", 0, 0, none⟩], 3, 1⟩

/-- Finish request for the C5 witness: A wins, B is second with 2 rounds won. -/
def wBody5 : TournamentFinish := ⟨"A", some "B", none, none, some [("B", 2)]⟩

/-- Result store of the C5 witness run. -/
def wDb5f : DB :=
  ⟨[⟨1, "A", 1050, 0, 0⟩, ⟨2, "B", 1025, 0, 0⟩], [],
   [⟨1, "T", "finished", "winner_takes_all", some "A", some "B", none, none⟩],
   [⟨1, 1, "A", 0, 50, some 1⟩, ⟨2, 1, "B", 0, 25, some 2⟩], 3, 1⟩

/-- Witness for C5: entrant B, both `secondName` and holder of 2 rounds won,
ends with stored delta 25 (second place), not 5. -/
theorem C5_delta_priority_witness :
    (⟨2, 1, "B", 0, 25, some 2⟩ : TourPlayer).finishPlace
      = placeOf "A" (some "B") none "B" ∧
    (⟨2, 1, "B", 0, 25, some 2⟩ : TourPlayer).ratingDelta = 25 := by
  have h := C5_delta_priority wDb5 1 wBody5 wDb5f (by decide)
    ⟨2, 1, "B", 0, 25, some 2⟩ (by decide) rfl
  exact ⟨h.1, h.2.2.2.2.2.2.2.2 (by decide) rfl (by decide)⟩

/-- Store for the C10 witness: active tournament 1 whose only entrant is A;
player C exists but is not entered. -/
def wDb10 : DB :=
  ⟨[⟨1, "A", 1000, 0, 0⟩, ⟨2, "C", 1000, 0, 0⟩], [],
   [⟨1, "T", "active", "winner_takes_all", none, none, none, none⟩],
   [⟨1, 1, "A", 0, 0, none⟩], 3, 1⟩

/-- Finish request for the C10 witness: winner A, second names the
non-entrant C. -/
def wBody10 : TournamentFinish := ⟨"A", some "C", none, none, none⟩

/-- Result store of the C10 witness run. -/
def wDb10f : DB :=
  ⟨[⟨1, "A", 1050, 0, 0⟩, ⟨2, "C", 1000, 0, 0⟩], [],
   [⟨1, "T", "finished", "winner_takes_all", some "A", some "C", none, none⟩],
   [⟨1, 1, "A", 0, 50, some 1⟩], 3, 1⟩

/-- Witness for C10: finishing with a non-entrant `secondName` succeeds,
player C's row is untouched, and the sole roster row is not placed second. -/
theorem C10_winner_only_validated_witness :
    finish_tournament 1 wBody10 wDb10 = .ok wDb10f ∧
    (⟨2, "C", 1000, 0, 0⟩ : Player) ∈ wDb10f.players ∧
    (⟨1, 1, "A", 0, 50, some 1⟩ : TourPlayer).finishPlace ≠ some 2 := by
  obtain ⟨db1, hok, hplayers, hsecond, _⟩ := C10_winner_only_validated wDb10 1 wBody10
    ⟨1, "T", "active", "winner_takes_all", none, none, none, none⟩ (by decide) rfl
    ⟨⟨1, 1, "A", 0, 0, none⟩, by decide, rfl, rfl⟩
  have hconc : finish_tournament 1 wBody10 wDb10 = .ok wDb10f := by decide
  have hdb : db1 = wDb10f := by
    rw [hok] at hconc
    injection hconc
  subst hdb
  have hS : ∀ s2, wBody10.second_name = some s2 → s2 ≠ "" →
      ∀ r ∈ wDb10.tourPlayers, r.tournamentId = 1 → r.playerName ≠ s2 := by
    intro s2 hs2 hne r hr htid
    have hs2c : s2 = "C" := (Option.some.inj hs2).symm
    subst hs2c
    have : r = ⟨1, 1, "A", 0, 0, none⟩ := by simpa [wDb10] using hr
    subst this
    decide
  exact ⟨hconc, hplayers ⟨2, "C", 1000, 0, 0⟩ (by decide) (by decide),
    hsecond hS ⟨1, 1, "A", 0, 50, some 1⟩ (by decide) rfl⟩

/-! ## Claim C1: record/delete round trip -/

/-- A found player row is in the table. -/
theorem findByName_mem {ps : List Player} {n : String} {p : Player}
    (h : findByName ps n = some p) : p ∈ ps :=
  List.mem_of_find?_eq_some h

/-- A found player row carries the searched name. -/
theorem findByName_name {ps : List Player} {n : String} {p : Player}
    (h : findByName ps n = some p) : p.name = n := by
  have := List.find?_some h
  rwa [beq_iff_eq] at this

/-- With unique ids, two table rows with the same id coincide. -/
theorem WF_inj_id {db : DB} (h : db.WF) {p q : Player} (hp : p ∈ db.players)
    (hq : q ∈ db.players) (hid : p.id = q.id) : p = q :=
  List.inj_on_of_nodup_map h.2.1 hp hq hid

/-- With unique names, two table rows with the same name coincide. -/
theorem WF_inj_name {db : DB} (h : db.WF) {p q : Player} (hp : p ∈ db.players)
    (hq : q ∈ db.players) (hn : p.name = q.name) : p = q :=
  List.inj_on_of_nodup_map h.1 hp hq hn

/-- Symbolic evaluation of a valid singles `create_match` call. -/
theorem create_match_singles_eval (elo : Int → Int → Int → Int → Int × Int)
    (body : MatchCreate) (db : DB) (pl1 pl2 : Player)
    (hs : body.score1 ≠ body.score2) (h1 : 0 ≤ body.score1) (h2 : 0 ≤ body.score2)
    (h2v2 : (truthyOpt body.p1b_name && truthyOpt body.p2b_name) = false)
    (hf1 : findByName db.players body.p1_name = some pl1)
    (hf2 : findByName db.players body.p2_name = some pl2) :
    create_match elo body db = .ok
      (⟨db.nextMatchId, body.p1_name, body.p2_name, none, none, body.score1, body.score2,
        if body.score1 > body.score2 then body.p1_name else body.p2_name,
        (elo pl1.rating pl2.rating body.score1 body.score2).1,
        (elo pl1.rating pl2.rating body.score1 body.score2).2⟩,
       { db with
         players := applyById (applyById db.players pl1.id
             (elo pl1.rating pl2.rating body.score1 body.score2).1
             (decide (body.score1 > body.score2))) pl2.id
             (elo pl1.rating pl2.rating body.score1 body.score2).2
             (!decide (body.score1 > body.score2)),
         matchRows := db.matchRows ++
           [⟨db.nextMatchId, body.p1_name, body.p2_name, none, none,
             body.score1, body.score2,
             if body.score1 > body.score2 then body.p1_name else body.p2_name,
             (elo pl1.rating pl2.rating body.score1 body.score2).1,
             (elo pl1.rating pl2.rating body.score1 body.score2).2⟩],
         nextMatchId := db.nextMatchId + 1 }) := by
  unfold create_match
  rw [if_neg hs, if_neg (by omega), hf1, hf2, h2v2]
  rfl

/-- Symbolic evaluation of a valid doubles `create_match` call. -/
theorem create_match_doubles_eval (elo : Int → Int → Int → Int → Int × Int)
    (body : MatchCreate) (db : DB) (pl1 pl2 pl1b pl2b : Player) (n1b n2b : String)
    (hs : body.score1 ≠ body.score2) (h1 : 0 ≤ body.score1) (h2 : 0 ≤ body.score2)
    (hb1 : body.p1b_name = some n1b) (hb2 : body.p2b_name = some n2b)
    (hn1 : n1b ≠ "") (hn2 : n2b ≠ "")
    (hf1 : findByName db.players body.p1_name = some pl1)
    (hf2 : findByName db.players body.p2_name = some pl2)
    (hf1b : findByName db.players n1b = some pl1b)
    (hf2b : findByName db.players n2b = some pl2b) :
    create_match elo body db = .ok
      (⟨db.nextMatchId, body.p1_name, body.p2_name, some n1b, some n2b,
        body.score1, body.score2,
        if body.score1 > body.score2 then body.p1_name else body.p2_name,
        (elo ((pl1.rating + pl1b.rating).fdiv 2) ((pl2.rating + pl2b.rating).fdiv 2)
          body.score1 body.score2).1,
        (elo ((pl1.rating + pl1b.rating).fdiv 2) ((pl2.rating + pl2b.rating).fdiv 2)
          body.score1 body.score2).2⟩,
       { db with
         players := applyById (applyById (applyById (applyById db.players pl1.id
             (elo ((pl1.rating + pl1b.rating).fdiv 2) ((pl2.rating + pl2b.rating).fdiv 2)
               body.score1 body.score2).1
             (decide (body.score1 > body.score2))) pl1b.id
             (elo ((pl1.rating + pl1b.rating).fdiv 2) ((pl2.rating + pl2b.rating).fdiv 2)
               body.score1 body.score2).1
             (decide (body.score1 > body.score2))) pl2.id
             (elo ((pl1.rating + pl1b.rating).fdiv 2) ((pl2.rating + pl2b.rating).fdiv 2)
               body.score1 body.score2).2
             (!decide (body.score1 > body.score2))) pl2b.id
             (elo ((pl1.rating + pl1b.rating).fdiv 2) ((pl2.rating + pl2b.rating).fdiv 2)
               body.score1 body.score2).2
             (!decide (body.score1 > body.score2)),
         matchRows := db.matchRows ++
           [⟨db.nextMatchId, body.p1_name, body.p2_name, some n1b, some n2b,
             body.score1, body.score2,
             if body.score1 > body.score2 then body.p1_name else body.p2_name,
             (elo ((pl1.rating + pl1b.rating).fdiv 2) ((pl2.rating + pl2b.rating).fdiv 2)
               body.score1 body.score2).1,
             (elo ((pl1.rating + pl1b.rating).fdiv 2) ((pl2.rating + pl2b.rating).fdiv 2)
               body.score1 body.score2).2⟩],
         nextMatchId := db.nextMatchId + 1 }) := by
  have h2v2 : (truthyOpt body.p1b_name && truthyOpt body.p2b_name) = true := by
    rw [hb1, hb2]
    simp [truthyOpt, hn1, hn2]
  unfold create_match
  rw [if_neg hs, if_neg (by omega), hf1, hf2, h2v2, hb1, hb2]
  dsimp only
  rw [hf1b, hf2b]
  rfl

/-- Symbolic evaluation of `delete_match` once the row is found. -/
theorem delete_match_eval (db : DB) (m : GameMatch)
    (hfind : db.matchRows.find? (fun x => x.id == m.id) = some m) :
    delete_match m.id db = .ok { db with
      players := (matchPairs m).foldl (fun acc pr => acc.map (revP pr)) db.players,
      matchRows := db.matchRows.filter (fun x => x.id != m.id) } := by
  unfold delete_match
  rw [hfind]

/-- Deleting the just-recorded singles match restores the store, except for
the advanced match id counter. -/
theorem roundtrip_singles_del (elo : Int → Int → Int → Int → Int × Int)
    (db : DB) (body : MatchCreate) (pl1 pl2 : Player)
    (hWF : db.WF)
    (hf1 : findByName db.players body.p1_name = some pl1)
    (hf2 : findByName db.players body.p2_name = some pl2)
    (hne : body.p1_name ≠ body.p2_name) :
    delete_match db.nextMatchId
      { db with
        players := applyById (applyById db.players pl1.id
            (elo pl1.rating pl2.rating body.score1 body.score2).1
            (decide (body.score1 > body.score2))) pl2.id
            (elo pl1.rating pl2.rating body.score1 body.score2).2
            (!decide (body.score1 > body.score2)),
        matchRows := db.matchRows ++
          [⟨db.nextMatchId, body.p1_name, body.p2_name, none, none,
            body.score1, body.score2,
            if body.score1 > body.score2 then body.p1_name else body.p2_name,
            (elo pl1.rating pl2.rating body.score1 body.score2).1,
            (elo pl1.rating pl2.rating body.score1 body.score2).2⟩],
        nextMatchId := db.nextMatchId + 1 }
      = .ok { db with nextMatchId := db.nextMatchId + 1 } := by
  set d := elo pl1.rating pl2.rating body.score1 body.score2 with hd
  set w := decide (body.score1 > body.score2) with hw
  set M : GameMatch := ⟨db.nextMatchId, body.p1_name, body.p2_name, none, none,
    body.score1, body.score2,
    if body.score1 > body.score2 then body.p1_name else body.p2_name, d.1, d.2⟩ with hM
  have hm1 := findByName_mem hf1
  have hm2 := findByName_mem hf2
  have hn1 := findByName_name hf1
  have hn2 := findByName_name hf2
  have hne' : body.p2_name ≠ body.p1_name := Ne.symm hne
  have hplne : pl1 ≠ pl2 := fun h => hne (by rw [← hn1, h, hn2])
  have hidne : pl1.id ≠ pl2.id := fun h => hplne (WF_inj_id hWF hm1 hm2 h)
  have hidne' : pl2.id ≠ pl1.id := Ne.symm hidne
  have hp1ne : body.p1_name ≠ "" := hn1 ▸ hWF.2.2.1 pl1 hm1
  have hp2ne : body.p2_name ≠ "" := hn2 ▸ hWF.2.2.1 pl2 hm2
  have hfresh : db.matchRows.find? (fun x => x.id == db.nextMatchId) = none :=
    List.find?_eq_none.mpr (fun x hx => by
      simp [Nat.ne_of_lt (hWF.2.2.2 x hx)])
  have hfindm : (db.matchRows ++ [M]).find? (fun x => x.id == db.nextMatchId)
      = some M := by
    rw [List.find?_append, hfresh]
    simp [hM]
  have hw1 : (decide ((if body.score1 > body.score2 then body.p1_name else body.p2_name)
      = body.p1_name)) = w := by
    rw [hw]
    by_cases hgt : body.score1 > body.score2 <;> simp [hgt, hne']
  have hw2 : (decide ((if body.score1 > body.score2 then body.p1_name else body.p2_name)
      = body.p2_name)) = !w := by
    rw [hw]
    by_cases hgt : body.score1 > body.score2 <;> simp [hgt, hne]
  have hpairs : matchPairs M = [(some body.p1_name, d.1, w), (some body.p2_name, d.2, !w)] := by
    rw [hM]
    show [(some body.p1_name, d.1, _), (some body.p2_name, d.2, _)] = _
    rw [hw1, hw2]
  have hmrows : (db.matchRows ++ [M]).filter (fun x => x.id != db.nextMatchId)
      = db.matchRows := by
    rw [List.filter_append]
    have hself : db.matchRows.filter (fun x => x.id != db.nextMatchId) = db.matchRows :=
      List.filter_eq_self.mpr (fun x hx => by
        simp [Nat.ne_of_lt (hWF.2.2.2 x hx)])
    have hone : [M].filter (fun x => x.id != db.nextMatchId) = [] := by
      simp [hM]
    rw [hself, hone, List.append_nil]
  have hplayers : (matchPairs M).foldl (fun acc pr => acc.map (revP pr))
      (applyById (applyById db.players pl1.id d.1 w) pl2.id d.2 (!w)) = db.players := by
    rw [hpairs]
    simp only [List.foldl_cons, List.foldl_nil]
    have hrev1 : revP (some body.p1_name, d.1, w) = revF body.p1_name d.1 w := by
      funext q
      simp [revP, hp1ne]
    have hrev2 : revP (some body.p2_name, d.2, !w) = revF body.p2_name d.2 (!w) := by
      funext q
      simp [revP, hp2ne]
    rw [hrev1, hrev2]
    unfold applyById
    rw [List.map_map, List.map_map, List.map_map]
    apply list_map_id
    intro p hp
    simp only [Function.comp_apply]
    by_cases hp1 : p = pl1
    · subst hp1
      simp [appF, revF, hidne, hn1, hne]
      rw [← hn1]
    · by_cases hp2 : p = pl2
      · subst hp2
        simp [appF, revF, hidne', hn2, hne']
        rw [← hn2]
      · have hid1 : p.id ≠ pl1.id := fun h => hp1 (WF_inj_id hWF hp hm1 h)
        have hid2 : p.id ≠ pl2.id := fun h => hp2 (WF_inj_id hWF hp hm2 h)
        have hnm1 : p.name ≠ body.p1_name :=
          fun h => hp1 (WF_inj_name hWF hp hm1 (h.trans hn1.symm))
        have hnm2 : p.name ≠ body.p2_name :=
          fun h => hp2 (WF_inj_name hWF hp hm2 (h.trans hn2.symm))
        simp [appF, revF, hid1, hid2, hnm1, hnm2]
  unfold delete_match
  dsimp only
  rw [hfindm]
  dsimp only
  rw [hplayers, hmrows]

/-- Deleting the just-recorded doubles match restores the store, except for
the advanced match id counter. -/
theorem roundtrip_doubles_del (elo : Int → Int → Int → Int → Int × Int)
    (db : DB) (body : MatchCreate) (pl1 pl2 pl1b pl2b : Player) (n1b n2b : String)
    (hWF : db.WF)
    (hf1 : findByName db.players body.p1_name = some pl1)
    (hf2 : findByName db.players body.p2_name = some pl2)
    (hf1b : findByName db.players n1b = some pl1b)
    (hf2b : findByName db.players n2b = some pl2b)
    (hne12 : body.p1_name ≠ body.p2_name) (hne13 : body.p1_name ≠ n1b)
    (hne14 : body.p1_name ≠ n2b) (hne23 : body.p2_name ≠ n1b)
    (hne24 : body.p2_name ≠ n2b) (hne34 : n1b ≠ n2b) :
    delete_match db.nextMatchId
      { db with
        players := applyById (applyById (applyById (applyById db.players pl1.id
            (elo ((pl1.rating + pl1b.rating).fdiv 2) ((pl2.rating + pl2b.rating).fdiv 2)
              body.score1 body.score2).1
            (decide (body.score1 > body.score2))) pl1b.id
            (elo ((pl1.rating + pl1b.rating).fdiv 2) ((pl2.rating + pl2b.rating).fdiv 2)
              body.score1 body.score2).1
            (decide (body.score1 > body.score2))) pl2.id
            (elo ((pl1.rating + pl1b.rating).fdiv 2) ((pl2.rating + pl2b.rating).fdiv 2)
              body.score1 body.score2).2
            (!decide (body.score1 > body.score2))) pl2b.id
            (elo ((pl1.rating + pl1b.rating).fdiv 2) ((pl2.rating + pl2b.rating).fdiv 2)
              body.score1 body.score2).2
            (!decide (body.score1 > body.score2)),
        matchRows := db.matchRows ++
          [⟨db.nextMatchId, body.p1_name, body.p2_name, some n1b, some n2b,
            body.score1, body.score2,
            if body.score1 > body.score2 then body.p1_name else body.p2_name,
            (elo ((pl1.rating + pl1b.rating).fdiv 2) ((pl2.rating + pl2b.rating).fdiv 2)
              body.score1 body.score2).1,
            (elo ((pl1.rating + pl1b.rating).fdiv 2) ((pl2.rating + pl2b.rating).fdiv 2)
              body.score1 body.score2).2⟩],
        nextMatchId := db.nextMatchId + 1 }
      = .ok { db with nextMatchId := db.nextMatchId + 1 } := by
  set d := elo ((pl1.rating + pl1b.rating).fdiv 2) ((pl2.rating + pl2b.rating).fdiv 2)
    body.score1 body.score2 with hd
  set w := decide (body.score1 > body.score2) with hw
  set M : GameMatch := ⟨db.nextMatchId, body.p1_name, body.p2_name, some n1b, some n2b,
    body.score1, body.score2,
    if body.score1 > body.score2 then body.p1_name else body.p2_name, d.1, d.2⟩ with hM
  have hm1 := findByName_mem hf1
  have hm2 := findByName_mem hf2
  have hm3 := findByName_mem hf1b
  have hm4 := findByName_mem hf2b
  have hn1 := findByName_name hf1
  have hn2 := findByName_name hf2
  have hn3 := findByName_name hf1b
  have hn4 := findByName_name hf2b
  have hne21 := Ne.symm hne12
  have hne31 := Ne.symm hne13
  have hne41 := Ne.symm hne14
  have hne32 := Ne.symm hne23
  have hne42 := Ne.symm hne24
  have hne43 := Ne.symm hne34
  have hq12 : pl1 ≠ pl2 := fun h => hne12 (by rw [← hn1, h, hn2])
  have hq13 : pl1 ≠ pl1b := fun h => hne13 (by rw [← hn1, h, hn3])
  have hq14 : pl1 ≠ pl2b := fun h => hne14 (by rw [← hn1, h, hn4])
  have hq23 : pl2 ≠ pl1b := fun h => hne23 (by rw [← hn2, h, hn3])
  have hq24 : pl2 ≠ pl2b := fun h => hne24 (by rw [← hn2, h, hn4])
  have hq34 : pl1b ≠ pl2b := fun h => hne34 (by rw [← hn3, h, hn4])
  have hi12 : pl1.id ≠ pl2.id := fun h => hq12 (WF_inj_id hWF hm1 hm2 h)
  have hi13 : pl1.id ≠ pl1b.id := fun h => hq13 (WF_inj_id hWF hm1 hm3 h)
  have hi14 : pl1.id ≠ pl2b.id := fun h => hq14 (WF_inj_id hWF hm1 hm4 h)
  have hi23 : pl2.id ≠ pl1b.id := fun h => hq23 (WF_inj_id hWF hm2 hm3 h)
  have hi24 : pl2.id ≠ pl2b.id := fun h => hq24 (WF_inj_id hWF hm2 hm4 h)
  have hi34 : pl1b.id ≠ pl2b.id := fun h => hq34 (WF_inj_id hWF hm3 hm4 h)
  have hi21 := Ne.symm hi12
  have hi31 := Ne.symm hi13
  have hi41 := Ne.symm hi14
  have hi32 := Ne.symm hi23
  have hi42 := Ne.symm hi24
  have hi43 := Ne.symm hi34
  have hp1ne : body.p1_name ≠ "" := hn1 ▸ hWF.2.2.1 pl1 hm1
  have hp2ne : body.p2_name ≠ "" := hn2 ▸ hWF.2.2.1 pl2 hm2
  have hn1bne : n1b ≠ "" := hn3 ▸ hWF.2.2.1 pl1b hm3
  have hn2bne : n2b ≠ "" := hn4 ▸ hWF.2.2.1 pl2b hm4
  have hfresh : db.matchRows.find? (fun x => x.id == db.nextMatchId) = none :=
    List.find?_eq_none.mpr (fun x hx => by
      simp [Nat.ne_of_lt (hWF.2.2.2 x hx)])
  have hfindm : (db.matchRows ++ [M]).find? (fun x => x.id == db.nextMatchId)
      = some M := by
    rw [List.find?_append, hfresh]
    simp [hM]
  have hw1 : (decide ((if body.score1 > body.score2 then body.p1_name else body.p2_name)
      = body.p1_name)) = w := by
    rw [hw]
    by_cases hgt : body.score1 > body.score2 <;> simp [hgt, hne21]
  have hpairs : matchPairs M = [(some body.p1_name, d.1, w), (some n1b, d.1, w),
      (some body.p2_name, d.2, !w), (some n2b, d.2, !w)] := by
    rw [hM]
    unfold matchPairs
    rw [if_pos (by simp [truthyOpt, hn1bne])]
    dsimp only
    rw [hw1]
  have hmrows : (db.matchRows ++ [M]).filter (fun x => x.id != db.nextMatchId)
      = db.matchRows := by
    rw [List.filter_append]
    have hself : db.matchRows.filter (fun x => x.id != db.nextMatchId) = db.matchRows :=
      List.filter_eq_self.mpr (fun x hx => by
        simp [Nat.ne_of_lt (hWF.2.2.2 x hx)])
    have hone : [M].filter (fun x => x.id != db.nextMatchId) = [] := by
      simp [hM]
    rw [hself, hone, List.append_nil]
  have hplayers : (matchPairs M).foldl (fun acc pr => acc.map (revP pr))
      (applyById (applyById (applyById (applyById db.players pl1.id d.1 w) pl1b.id d.1 w)
        pl2.id d.2 (!w)) pl2b.id d.2 (!w)) = db.players := by
    rw [hpairs]
    simp only [List.foldl_cons, List.foldl_nil]
    have hrev1 : revP (some body.p1_name, d.1, w) = revF body.p1_name d.1 w := by
      funext q; simp [revP, hp1ne]
    have hrev2 : revP (some n1b, d.1, w) = revF n1b d.1 w := by
      funext q; simp [revP, hn1bne]
    have hrev3 : revP (some body.p2_name, d.2, !w) = revF body.p2_name d.2 (!w) := by
      funext q; simp [revP, hp2ne]
    have hrev4 : revP (some n2b, d.2, !w) = revF n2b d.2 (!w) := by
      funext q; simp [revP, hn2bne]
    rw [hrev1, hrev2, hrev3, hrev4]
    unfold applyById
    rw [List.map_map, List.map_map, List.map_map, List.map_map, List.map_map,
      List.map_map, List.map_map]
    apply list_map_id
    intro p hp
    simp only [Function.comp_apply]
    by_cases hp1 : p = pl1
    · subst hp1
      simp [appF, revF, hi12, hi13, hi14, hn1, hne12, hne13, hne14]
      rw [← hn1]
    · by_cases hp2 : p = pl2
      · subst hp2
        simp [appF, revF, hi21, hi23, hi24, hn2, hne21, hne23, hne24]
        rw [← hn2]
      · by_cases hp3 : p = pl1b
        · subst hp3
          simp [appF, revF, hi31, hi32, hi34, hn3, hne31, hne32, hne34]
          rw [← hn3]
        · by_cases hp4 : p = pl2b
          · subst hp4
            simp [appF, revF, hi41, hi42, hi43, hn4, hne41, hne42, hne43]
            rw [← hn4]
          · have hid1 : p.id ≠ pl1.id := fun h => hp1 (WF_inj_id hWF hp hm1 h)
            have hid2 : p.id ≠ pl2.id := fun h => hp2 (WF_inj_id hWF hp hm2 h)
            have hid3 : p.id ≠ pl1b.id := fun h => hp3 (WF_inj_id hWF hp hm3 h)
            have hid4 : p.id ≠ pl2b.id := fun h => hp4 (WF_inj_id hWF hp hm4 h)
            have hnm1 : p.name ≠ body.p1_name :=
              fun h => hp1 (WF_inj_name hWF hp hm1 (h.trans hn1.symm))
            have hnm2 : p.name ≠ body.p2_name :=
              fun h => hp2 (WF_inj_name hWF hp hm2 (h.trans hn2.symm))
            have hnm3 : p.name ≠ n1b :=
              fun h => hp3 (WF_inj_name hWF hp hm3 (h.trans hn3.symm))
            have hnm4 : p.name ≠ n2b :=
              fun h => hp4 (WF_inj_name hWF hp hm4 (h.trans hn4.symm))
            simp [appF, revF, hid1, hid2, hid3, hid4, hnm1, hnm2, hnm3, hnm4]
  unfold delete_match
  dsimp only
  rw [hfindm]
  dsimp only
  rw [hplayers, hmrows]

/-- A valid singles request against the store: the doubles inference does
not fire, both named players exist, and the two sides are distinct. -/
def singlesValid (db : DB) (body : MatchCreate) : Prop :=
  (truthyOpt body.p1b_name && truthyOpt body.p2b_name) = false ∧
  (findByName db.players body.p1_name).isSome = true ∧
  (findByName db.players body.p2_name).isSome = true ∧
  body.p1_name ≠ body.p2_name

/-- A valid doubles request against the store: both partner slots truthy,
all four named players exist and are pairwise distinct. -/
def doublesValid (db : DB) (body : MatchCreate) : Prop :=
  ∃ n1b n2b, body.p1b_name = some n1b ∧ body.p2b_name = some n2b ∧
    n1b ≠ "" ∧ n2b ≠ "" ∧
    (findByName db.players body.p1_name).isSome = true ∧
    (findByName db.players body.p2_name).isSome = true ∧
    (findByName db.players n1b).isSome = true ∧
    (findByName db.players n2b).isSome = true ∧
    [body.p1_name, body.p2_name, n1b, n2b].Pairwise (fun a b => a ≠ b)

/-- Claim C1: for any valid match (singles between two distinct existing
players, or doubles between four distinct existing players, with unequal
non-negative scores), `create_match` followed by `delete_match` on the newly
recorded match restores the whole players table — every participant's
rating, wins and losses — and the matches table to their exact pre-match
values. -/
theorem C1_record_delete_roundtrip (elo : Int → Int → Int → Int → Int × Int)
    (db : DB) (body : MatchCreate) (hWF : db.WF)
    (hs : body.score1 ≠ body.score2) (h1 : 0 ≤ body.score1) (h2 : 0 ≤ body.score2)
    (hvalid : singlesValid db body ∨ doublesValid db body) :
    ∃ m db1 db2, create_match elo body db = .ok (m, db1) ∧
      delete_match m.id db1 = .ok db2 ∧
      db2.players = db.players ∧ db2.matchRows = db.matchRows := by
  rcases hvalid with ⟨h2v2, hs1, hs2', hne⟩ |
    ⟨n1b, n2b, hb1, hb2, hn1b, hn2b, hs1, hs2', hs3, hs4, hpw⟩
  · obtain ⟨pl1, hf1⟩ := Option.isSome_iff_exists.mp hs1
    obtain ⟨pl2, hf2⟩ := Option.isSome_iff_exists.mp hs2'
    exact ⟨_, _, _, create_match_singles_eval elo body db pl1 pl2 hs h1 h2 h2v2 hf1 hf2,
      roundtrip_singles_del elo db body pl1 pl2 hWF hf1 hf2 hne, rfl, rfl⟩
  · obtain ⟨pl1, hf1⟩ := Option.isSome_iff_exists.mp hs1
    obtain ⟨pl2, hf2⟩ := Option.isSome_iff_exists.mp hs2'
    obtain ⟨pl1b, hf1b⟩ := Option.isSome_iff_exists.mp hs3
    obtain ⟨pl2b, hf2b⟩ := Option.isSome_iff_exists.mp hs4
    rcases hpw with _ | ⟨ha1, hpw⟩
    rcases hpw with _ | ⟨ha2, hpw⟩
    rcases hpw with _ | ⟨ha3, _⟩
    exact ⟨_, _, _,
      create_match_doubles_eval elo body db pl1 pl2 pl1b pl2b n1b n2b hs h1 h2
        hb1 hb2 hn1b hn2b hf1 hf2 hf1b hf2b,
      roundtrip_doubles_del elo db body pl1 pl2 pl1b pl2b n1b n2b hWF hf1 hf2 hf1b hf2b
        (ha1 _ (by simp)) (ha1 _ (by simp)) (ha1 _ (by simp))
        (ha2 _ (by simp)) (ha2 _ (by simp)) (ha3 _ (by simp)),
      rfl, rfl⟩

/-- Witness for C1: a concrete singles round trip (A beats B 11:5) and a
concrete doubles round trip (A,C beat B,D 11:5), both on explicit stores. -/
theorem C1_record_delete_roundtrip_witness :
    (∃ m db1 db2, create_match eloCx ⟨"A", "B", 11, 5, none, none⟩
        (⟨[⟨1, "A", 1000, 0, 0⟩, ⟨2, "B", 1000, 0, 0⟩], [], [], [], 3, 1⟩ : DB)
        = .ok (m, db1) ∧
      delete_match m.id db1 = .ok db2 ∧
      db2.players = [⟨1, "A", 1000, 0, 0⟩, ⟨2, "B", 1000, 0, 0⟩] ∧
      db2.matchRows = []) ∧
    (∃ m db1 db2, create_match eloCx ⟨"A", "B", 11, 5, some "C", some "D"⟩
        (⟨[⟨1, "A", 1000, 0, 0⟩, ⟨2, "B", 1000, 0, 0⟩,
           ⟨3, "C", 1000, 0, 0⟩, ⟨4, "D", 1000, 0, 0⟩], [], [], [], 5, 1⟩ : DB)
        = .ok (m, db1) ∧
      delete_match m.id db1 = .ok db2 ∧
      db2.players = [⟨1, "A", 1000, 0, 0⟩, ⟨2, "B", 1000, 0, 0⟩,
        ⟨3, "C", 1000, 0, 0⟩, ⟨4, "D", 1000, 0, 0⟩] ∧
      db2.matchRows = []) :=
  ⟨C1_record_delete_roundtrip eloCx
      ⟨[⟨1, "A", 1000, 0, 0⟩, ⟨2, "B", 1000, 0, 0⟩], [], [], [], 3, 1⟩
      ⟨"A", "B", 11, 5, none, none⟩ (by decide) (by decide) (by decide) (by decide)
      (Or.inl ⟨by decide, by decide, by decide, by decide⟩),
   C1_record_delete_roundtrip eloCx
      ⟨[⟨1, "A", 1000, 0, 0⟩, ⟨2, "B", 1000, 0, 0⟩,
        ⟨3, "C", 1000, 0, 0⟩, ⟨4, "D", 1000, 0, 0⟩], [], [], [], 5, 1⟩
      ⟨"A", "B", 11, 5, some "C", some "D"⟩ (by decide) (by decide) (by decide) (by decide)
      (Or.inr ⟨"C", "D", rfl, rfl, by decide, by decide, by decide, by decide,
        by decide, by decide, by decide⟩)⟩

/-! ## Claim C7: doubles use floored team-average ratings -/

/-- Claim C7: for a valid doubles match, each side's effective rating handed
to the delta function is the floor of the arithmetic mean of its two
members' current ratings (characterised by `2*avg ≤ r + r' < 2*avg + 2`),
the delta function is applied once to these two team averages to produce the
stored pair `(d1, d2)`, and the single per-side delta is applied identically
— same value, same win/loss increment — to both members of each side. -/
theorem C7_doubles_team_average (elo : Int → Int → Int → Int → Int × Int)
    (db : DB) (body : MatchCreate) (pl1 pl2 pl1b pl2b : Player) (n1b n2b : String)
    (hWF : db.WF)
    (hs : body.score1 ≠ body.score2) (h1 : 0 ≤ body.score1) (h2 : 0 ≤ body.score2)
    (hb1 : body.p1b_name = some n1b) (hb2 : body.p2b_name = some n2b)
    (hn1b : n1b ≠ "") (hn2b : n2b ≠ "")
    (hf1 : findByName db.players body.p1_name = some pl1)
    (hf2 : findByName db.players body.p2_name = some pl2)
    (hf1b : findByName db.players n1b = some pl1b)
    (hf2b : findByName db.players n2b = some pl2b)
    (hpw : [body.p1_name, body.p2_name, n1b, n2b].Pairwise (fun a b => a ≠ b)) :
    ∃ m db1, create_match elo body db = .ok (m, db1) ∧
      (m.d1, m.d2) = elo ((pl1.rating + pl1b.rating).fdiv 2)
        ((pl2.rating + pl2b.rating).fdiv 2) body.score1 body.score2 ∧
      2 * ((pl1.rating + pl1b.rating).fdiv 2) ≤ pl1.rating + pl1b.rating ∧
      pl1.rating + pl1b.rating < 2 * ((pl1.rating + pl1b.rating).fdiv 2) + 2 ∧
      2 * ((pl2.rating + pl2b.rating).fdiv 2) ≤ pl2.rating + pl2b.rating ∧
      pl2.rating + pl2b.rating < 2 * ((pl2.rating + pl2b.rating).fdiv 2) + 2 ∧
      findByName db1.players body.p1_name = some { pl1 with
        rating := pl1.rating + m.d1,
        wins := pl1.wins + (if body.score1 > body.score2 then 1 else 0),
        losses := pl1.losses + (if body.score1 > body.score2 then 0 else 1) } ∧
      findByName db1.players n1b = some { pl1b with
        rating := pl1b.rating + m.d1,
        wins := pl1b.wins + (if body.score1 > body.score2 then 1 else 0),
        losses := pl1b.losses + (if body.score1 > body.score2 then 0 else 1) } ∧
      findByName db1.players body.p2_name = some { pl2 with
        rating := pl2.rating + m.d2,
        wins := pl2.wins + (if body.score1 > body.score2 then 0 else 1),
        losses := pl2.losses + (if body.score1 > body.score2 then 1 else 0) } ∧
      findByName db1.players n2b = some { pl2b with
        rating := pl2b.rating + m.d2,
        wins := pl2b.wins + (if body.score1 > body.score2 then 0 else 1),
        losses := pl2b.losses + (if body.score1 > body.score2 then 1 else 0) } := by
  have hcreate := create_match_doubles_eval elo body db pl1 pl2 pl1b pl2b n1b n2b
    hs h1 h2 hb1 hb2 hn1b hn2b hf1 hf2 hf1b hf2b
  rcases hpw with _ | ⟨ha1, hpw⟩
  rcases hpw with _ | ⟨ha2, hpw⟩
  rcases hpw with _ | ⟨ha3, _⟩
  have hne12 : body.p1_name ≠ body.p2_name := ha1 _ (by simp)
  have hne13 : body.p1_name ≠ n1b := ha1 _ (by simp)
  have hne14 : body.p1_name ≠ n2b := ha1 _ (by simp)
  have hne23 : body.p2_name ≠ n1b := ha2 _ (by simp)
  have hne24 : body.p2_name ≠ n2b := ha2 _ (by simp)
  have hne34 : n1b ≠ n2b := ha3 _ (by simp)
  have hm1 := findByName_mem hf1
  have hm2 := findByName_mem hf2
  have hm3 := findByName_mem hf1b
  have hm4 := findByName_mem hf2b
  have hn1 := findByName_name hf1
  have hn2 := findByName_name hf2
  have hn3 := findByName_name hf1b
  have hn4 := findByName_name hf2b
  have hq12 : pl1 ≠ pl2 := fun h => hne12 (by rw [← hn1, h, hn2])
  have hq13 : pl1 ≠ pl1b := fun h => hne13 (by rw [← hn1, h, hn3])
  have hq14 : pl1 ≠ pl2b := fun h => hne14 (by rw [← hn1, h, hn4])
  have hq23 : pl2 ≠ pl1b := fun h => hne23 (by rw [← hn2, h, hn3])
  have hq24 : pl2 ≠ pl2b := fun h => hne24 (by rw [← hn2, h, hn4])
  have hq34 : pl1b ≠ pl2b := fun h => hne34 (by rw [← hn3, h, hn4])
  have hi12 : pl1.id ≠ pl2.id := fun h => hq12 (WF_inj_id hWF hm1 hm2 h)
  have hi13 : pl1.id ≠ pl1b.id := fun h => hq13 (WF_inj_id hWF hm1 hm3 h)
  have hi14 : pl1.id ≠ pl2b.id := fun h => hq14 (WF_inj_id hWF hm1 hm4 h)
  have hi23 : pl2.id ≠ pl1b.id := fun h => hq23 (WF_inj_id hWF hm2 hm3 h)
  have hi24 : pl2.id ≠ pl2b.id := fun h => hq24 (WF_inj_id hWF hm2 hm4 h)
  have hi34 : pl1b.id ≠ pl2b.id := fun h => hq34 (WF_inj_id hWF hm3 hm4 h)
  have hi21 := Ne.symm hi12
  have hi31 := Ne.symm hi13
  have hi41 := Ne.symm hi14
  have hi32 := Ne.symm hi23
  have hi42 := Ne.symm hi24
  have hi43 := Ne.symm hi34
  refine ⟨_, _, hcreate, rfl, ?_, ?_, ?_, ?_, ?_, ?_, ?_, ?_⟩
  · rw [Int.fdiv_eq_ediv] <;> omega
  · rw [Int.fdiv_eq_ediv] <;> omega
  · rw [Int.fdiv_eq_ediv] <;> omega
  · rw [Int.fdiv_eq_ediv] <;> omega
  · show findByName (applyById (applyById (applyById (applyById db.players _ _ _) _ _ _)
        _ _ _) _ _ _) body.p1_name = _
    unfold applyById
    rw [findByName_map_pres _ (appF_name _ _ _), findByName_map_pres _ (appF_name _ _ _),
      findByName_map_pres _ (appF_name _ _ _), findByName_map_pres _ (appF_name _ _ _), hf1]
    by_cases hgt : body.score1 > body.score2 <;>
      simp [appF, hi12, hi13, hi14, hgt]
  · show findByName (applyById (applyById (applyById (applyById db.players _ _ _) _ _ _)
        _ _ _) _ _ _) n1b = _
    unfold applyById
    rw [findByName_map_pres _ (appF_name _ _ _), findByName_map_pres _ (appF_name _ _ _),
      findByName_map_pres _ (appF_name _ _ _), findByName_map_pres _ (appF_name _ _ _), hf1b]
    by_cases hgt : body.score1 > body.score2 <;>
      simp [appF, hi31, hi32, hi34, hgt]
  · show findByName (applyById (applyById (applyById (applyById db.players _ _ _) _ _ _)
        _ _ _) _ _ _) body.p2_name = _
    unfold applyById
    rw [findByName_map_pres _ (appF_name _ _ _), findByName_map_pres _ (appF_name _ _ _),
      findByName_map_pres _ (appF_name _ _ _), findByName_map_pres _ (appF_name _ _ _), hf2]
    by_cases hgt : body.score1 > body.score2 <;>
      simp [appF, hi21, hi23, hi24, hgt]
  · show findByName (applyById (applyById (applyById (applyById db.players _ _ _) _ _ _)
        _ _ _) _ _ _) n2b = _
    unfold applyById
    rw [findByName_map_pres _ (appF_name _ _ _), findByName_map_pres _ (appF_name _ _ _),
      findByName_map_pres _ (appF_name _ _ _), findByName_map_pres _ (appF_name _ _ _), hf2b]
    by_cases hgt : body.score1 > body.score2 <;>
      simp [appF, hi41, hi42, hi43, hgt]

/-- Witness for C7: A (1001) and C (1000) against B and D (1000 each); side
1's effective rating is the floor `⌊2001/2⌋ = 1000`, and the single per-side
delta is applied to both members of each side. -/
theorem C7_doubles_team_average_witness :
    ∃ m db1, create_match eloCx ⟨"A", "B", 11, 5, some "C", some "D"⟩
        (⟨[⟨1, "A", 1001, 0, 0⟩, ⟨2, "B", 1000, 0, 0⟩, ⟨3, "C", 1000, 0, 0⟩,
           ⟨4, "D", 1000, 0, 0⟩], [], [], [], 5, 1⟩ : DB) = .ok (m, db1) ∧
      (m.d1, m.d2) = eloCx (((1001 : Int) + 1000).fdiv 2) (((1000 : Int) + 1000).fdiv 2)
        11 5 ∧
      2 * (((1001 : Int) + 1000).fdiv 2) ≤ 1001 + 1000 ∧
      (1001 : Int) + 1000 < 2 * (((1001 : Int) + 1000).fdiv 2) + 2 ∧
      2 * (((1000 : Int) + 1000).fdiv 2) ≤ 1000 + 1000 ∧
      (1000 : Int) + 1000 < 2 * (((1000 : Int) + 1000).fdiv 2) + 2 ∧
      findByName db1.players "A" = some ⟨1, "A", 1001 + m.d1, 0 + 1, 0 + 0⟩ ∧
      findByName db1.players "C" = some ⟨3, "C", 1000 + m.d1, 0 + 1, 0 + 0⟩ ∧
      findByName db1.players "B" = some ⟨2, "B", 1000 + m.d2, 0 + 0, 0 + 1⟩ ∧
      findByName db1.players "D" = some ⟨4, "D", 1000 + m.d2, 0 + 0, 0 + 1⟩ :=
  C7_doubles_team_average eloCx
    ⟨[⟨1, "A", 1001, 0, 0⟩, ⟨2, "B", 1000, 0, 0⟩, ⟨3, "C", 1000, 0, 0⟩,
      ⟨4, "D", 1000, 0, 0⟩], [], [], [], 5, 1⟩
    ⟨"A", "B", 11, 5, some "C", some "D"⟩
    ⟨1, "A", 1001, 0, 0⟩ ⟨2, "B", 1000, 0, 0⟩ ⟨3, "C", 1000, 0, 0⟩ ⟨4, "D", 1000, 0, 0⟩
    "C" "D" (by decide) (by decide) (by decide) (by decide) rfl rfl (by decide) (by decide)
    (by decide) (by decide) (by decide) (by decide) (by decide)

/-! ## Claim C3: cascading player deletion

The stored-delta reversal that `delete_player` performs is proved below
(`C3_amended`); the "as if those matches had never been recorded" consequence
is refuted (`C3_counterexample`), because a later match's delta was computed
from ratings that already included the deleted match's delta. -/

/-- Empty store with PostgreSQL-style counters starting at 1. -/
def cxStart : DB := ⟨[], [], [], [], 1, 1⟩

/-- The counterexample history: register A, B, C; optionally record
`B beats A 11:5`; record `B beats C 11:5`; then delete player A (id 1).
With the first match recorded, the second is played at ratings 1016 vs 1000
(deltas `(15, -15)`); without it, at 1000 vs 1000 (deltas `(16, -16)`).
`eloCx` returns exactly the source formula's values at these tuples. -/
def cxRun (withM1 : Bool) : Except Err DB := do
  let r1 ← create_player "A" cxStart
  let r2 ← create_player "B" r1.2
  let r3 ← create_player "C" r2.2
  let db4 ← if withM1 then do
      let r4 ← create_match eloCx ⟨"B", "A", 11, 5, none, none⟩ r3.2
      pure r4.2
    else pure r3.2
  let r5 ← create_match eloCx ⟨"B", "C", 11, 5, none, none⟩ db4
  delete_player 1 r5.2

/-- B's row after a run of the counterexample history. -/
def cxRowB (r : Except Err DB) : Option Player :=
  match r with
  | .ok d => findByName d.players "B"
  | .error _ => none

/-- Claim C3 (counterexample): the claim says that after `deletePlayer(A)`
every opponent ends with the values it would have had if A's matches had
never been recorded.  In the concrete history `cxRun`, opponent B ends with
rating 1015 (its match against C was settled at 1016 vs 1000, delta 15,
and deletion reverses only the stored delta 16 of the deleted match), while
the history without A's match leaves B at 1016 — the two differ. -/
theorem C3_counterexample :
    cxRowB (cxRun true) = some ⟨2, "B", 1015, 1, 0⟩ ∧
    cxRowB (cxRun false) = some ⟨2, "B", 1016, 1, 0⟩ ∧
    cxRowB (cxRun true) ≠ cxRowB (cxRun false) := by
  refine ⟨by decide, by decide, by decide⟩

/-- Stored delta of a pairs list attributed to the slots naming `q`. -/
def pairsDelta (q : String) : List (Option String × Int × Bool) → Int
  | [] => 0
  | pr :: rest => (if pr.1 = some q then pr.2.1 else 0) + pairsDelta q rest

/-- Number of winning slots of a pairs list naming `q`. -/
def pairsWins (q : String) : List (Option String × Int × Bool) → Int
  | [] => 0
  | pr :: rest => (if pr.1 = some q ∧ pr.2.2 = true then 1 else 0) + pairsWins q rest

/-- Number of losing slots of a pairs list naming `q`. -/
def pairsLosses (q : String) : List (Option String × Int × Bool) → Int
  | [] => 0
  | pr :: rest => (if pr.1 = some q ∧ pr.2.2 = false then 1 else 0) + pairsLosses q rest

/-- Total stored delta attributed to `q` over a list of match rows. -/
def matchesDelta (q : String) : List GameMatch → Int
  | [] => 0
  | m :: rest => pairsDelta q (matchPairs m) + matchesDelta q rest

/-- Total stored win count attributed to `q` over a list of match rows. -/
def matchesWins (q : String) : List GameMatch → Int
  | [] => 0
  | m :: rest => pairsWins q (matchPairs m) + matchesWins q rest

/-- Total stored loss count attributed to `q` over a list of match rows. -/
def matchesLosses (q : String) : List GameMatch → Int
  | [] => 0
  | m :: rest => pairsLosses q (matchPairs m) + matchesLosses q rest

/-- The one-slot reversal effect on a player row. -/
def revSub (pr : Option String × Int × Bool) (p : Player) : Player :=
  { p with rating := p.rating - pr.2.1,
           wins := p.wins - (if pr.2.2 then 1 else 0),
           losses := p.losses - (if pr.2.2 then 0 else 1) }

/-- On a row that is neither empty-named nor the retiring player, one
reversal step subtracts the slot's stored effect exactly when the slot names
the row. -/
theorem revPX_eval (keep : String) (pr : Option String × Int × Bool) (p : Player)
    (hne : p.name ≠ "") (hnk : p.name ≠ keep) :
    revPX keep pr p = if pr.1 = some p.name then revSub pr p else p := by
  rcases pr with ⟨os, d, w⟩
  cases os with
  | none => simp [revPX]
  | some s =>
    simp only [revPX]
    by_cases hsp : s = p.name
    · subst hsp
      simp [revF, revSub, hne, hnk]
    · have hps : p.name ≠ s := fun h => hsp h.symm
      simp [revF, revSub, hsp, hps]

/-- Folding the reversal over a pairs list subtracts the summed stored
effect attributed to the row's name. -/
theorem pairs_fold_eval (keep : String) :
    ∀ (prs : List (Option String × Int × Bool)) (p : Player),
      p.name ≠ "" → p.name ≠ keep →
      prs.foldl (fun a pr => revPX keep pr a) p
        = { p with rating := p.rating - pairsDelta p.name prs,
                   wins := p.wins - pairsWins p.name prs,
                   losses := p.losses - pairsLosses p.name prs }
  | [], p, _, _ => by simp [pairsDelta, pairsWins, pairsLosses]
  | pr :: rest, p, hne, hnk => by
    simp only [List.foldl_cons]
    rw [revPX_eval keep pr p hne hnk]
    by_cases hc : pr.1 = some p.name
    · rw [if_pos hc]
      rw [pairs_fold_eval keep rest (revSub pr p) hne hnk]
      simp only [pairsDelta, pairsWins, pairsLosses, if_pos hc, revSub, Player.mk.injEq]
      rcases pr with ⟨os, d, w⟩
      have hc2 : os = some p.name := hc
      cases w <;> simp [hc2] <;> omega
    · rw [if_neg hc]
      rw [pairs_fold_eval keep rest p hne hnk]
      have hc1 : ¬(pr.1 = some p.name ∧ pr.2.2 = true) := fun hx => hc hx.1
      have hc2 : ¬(pr.1 = some p.name ∧ pr.2.2 = false) := fun hx => hc hx.1
      simp [pairsDelta, pairsWins, pairsLosses, hc, hc1, hc2]

/-- Folding the reversal over all deleted matches subtracts the summed
stored effect attributed to the row's name. -/
theorem matches_fold_eval (keep : String) :
    ∀ (ms : List GameMatch) (p : Player),
      p.name ≠ "" → p.name ≠ keep →
      ms.foldl (fun q m => (matchPairs m).foldl (fun a pr => revPX keep pr a) q) p
        = { p with rating := p.rating - matchesDelta p.name ms,
                   wins := p.wins - matchesWins p.name ms,
                   losses := p.losses - matchesLosses p.name ms }
  | [], p, _, _ => by simp [matchesDelta, matchesWins, matchesLosses]
  | m :: rest, p, hne, hnk => by
    simp only [List.foldl_cons]
    rw [pairs_fold_eval keep (matchPairs m) p hne hnk]
    rw [matches_fold_eval keep rest ⟨p.id, p.name,
      p.rating - pairsDelta p.name (matchPairs m),
      p.wins - pairsWins p.name (matchPairs m),
      p.losses - pairsLosses p.name (matchPairs m)⟩ hne hnk]
    simp only [matchesDelta, matchesWins, matchesLosses, Player.mk.injEq]
    refine ⟨trivial, trivial, by omega, by omega, by omega⟩

/-- Two folds with step functions agreeing on the list's elements agree. -/
theorem foldl_congr_step {α β : Type} (s1 s2 : α → β → α) :
    ∀ (l : List β) (x : α), (∀ a b, b ∈ l → s1 a b = s2 a b) →
      l.foldl s1 x = l.foldl s2 x
  | [], _, _ => rfl
  | b :: l, x, h => by
    simp only [List.foldl_cons]
    rw [h x b (by simp)]
    exact foldl_congr_step s1 s2 l (s2 x b) (fun a b' hb' => h a b' (by simp [hb']))

/-- Claim C3 (amended): `delete_player` reverses, for every match
referencing the player on any side or slot, that match's stored per-slot
delta and win/loss mark on every *other* participant, deletes all those
matches, and deletes the player; every surviving player row therefore ends
at its pre-call value minus the summed stored effects attributed to it by
the deleted matches.  (This equals the as-if-never-recorded values only when
the remaining matches' stored deltas were themselves unaffected by the
deleted matches, e.g. when those were the opponents' only matches — see the
counterexample.) -/
theorem C3_amended (db : DB) (pid : Nat) (player : Player) (db1 : DB)
    (hWF : db.WF)
    (hfind : db.players.find? (fun p => p.id == pid) = some player)
    (h : delete_player pid db = .ok db1) :
    db1.matchRows = db.matchRows.filter (fun m => !(mentions m player.name)) ∧
    (∀ p ∈ db1.players, p.id ≠ pid) ∧
    (∀ q ∈ db.players, q.id ≠ pid →
      { q with
        rating := q.rating - matchesDelta q.name
          (db.matchRows.filter (fun m => mentions m player.name)),
        wins := q.wins - matchesWins q.name
          (db.matchRows.filter (fun m => mentions m player.name)),
        losses := q.losses - matchesLosses q.name
          (db.matchRows.filter (fun m => mentions m player.name)) } ∈ db1.players) := by
  unfold delete_player at h
  rw [hfind] at h
  dsimp only at h
  simp only [Except.ok.injEq] at h
  subst h
  refine ⟨rfl, ?_, ?_⟩
  · intro p hp
    have := (List.mem_filter.mp hp).2
    simpa using this
  · intro q hq hqid
    have hplayer_id : player.id = pid := by simpa using List.find?_some hfind
    have hpmem := List.mem_of_find?_eq_some hfind
    have hqne : q ≠ player := fun hh => hqid (hh ▸ hplayer_id)
    have hname : q.name ≠ player.name := fun hh => hqne (WF_inj_name hWF hq hpmem hh)
    have hempty : q.name ≠ "" := hWF.2.2.1 q hq
    rw [foldl_congr_step
      (fun acc m => (matchPairs m).foldl (fun a pr => a.map (revPX player.name pr)) acc)
      (fun acc m => acc.map
        (fun p => (matchPairs m).foldl (fun a pr => revPX player.name pr a) p))
      (db.matchRows.filter (fun m => mentions m player.name)) db.players
      (fun a b _ => foldl_map_eq_map_foldl _ (matchPairs b) a)]
    rw [foldl_map_eq_map_foldl]
    refine List.mem_filter.mpr ⟨List.mem_map.mpr ⟨q, hq, ?_⟩, ?_⟩
    · exact matches_fold_eval player.name
        (db.matchRows.filter (fun m => mentions m player.name)) q hempty hname
    · simpa using hqid

/-- Store for the C3 witness: A (984, 1 loss) and B (1016, 1 win) with their
recorded match `B beats A 11:5` (stored deltas 16 and -16). -/
def wDelDb : DB :=
  ⟨[⟨1, "A", 984, 0, 1⟩, ⟨2, "B", 1016, 1, 0⟩],
   [⟨1, "B", "A", none, none, 11, 5, "B", 16, -16⟩], [], [], 3, 2⟩

/-- Result store of the C3 witness run: `delete_player 1` (A). -/
def wDelDb1 : DB := ⟨[⟨2, "B", 1000, 0, 0⟩], [], [], [], 3, 2⟩

/-- Witness for the amended C3: deleting A removes A's match and row and
leaves B at its pre-call values minus the stored effect of the deleted
match. -/
theorem C3_amended_witness :
    wDelDb1.matchRows = wDelDb.matchRows.filter (fun m => !(mentions m "A")) ∧
    (⟨2, "B",
      1016 - matchesDelta "B" (wDelDb.matchRows.filter (fun m => mentions m "A")),
      1 - matchesWins "B" (wDelDb.matchRows.filter (fun m => mentions m "A")),
      0 - matchesLosses "B" (wDelDb.matchRows.filter (fun m => mentions m "A"))⟩ : Player)
      ∈ wDelDb1.players := by
  have h := C3_amended wDelDb 1 ⟨1, "A", 984, 0, 1⟩ wDelDb1 (by decide) (by decide)
    (by decide)
  exact ⟨h.1, h.2.2 ⟨2, "B", 1016, 1, 0⟩ (by decide) (by decide)⟩

end Sotopong
